import Mathlib

/-!
Verification development for the BaseScript repository: a compiler from a
declarative YAML automation script to one of three browser-automation
backends (puppeteer, playwright, selenium), plus a CSS baseline-feature
analysis engine.

The definitions below are shallow embeddings of the JavaScript sources:
  - src/compiler/utils.js        (parseTimeout, checkAssertion)
  - src/unnamed/part_008         (parser.js: zod schema, parse, generateIR)
  - src/compiler/compiler.js     (framework handlers, compile, run)
  - src/compiler/baseline.js     (createFeatureLookupMap, processCssAst)

Modelling conventions, used throughout:
  - JavaScript strings are Lean String; case conversion is done by mapping
    Char.toLower over the characters (the sources only lowercase ASCII
    identifiers).
  - JavaScript truthiness on optional strings / booleans / numbers is made
    explicit (truthyStr, truthyBool, truthyNum): undefined, null, empty
    string, false and 0 are falsy.
  - A JavaScript Map is an association list with unique keys; Map.set
    replaces in place, Map.get is the first (unique) match.
  - Fallible JavaScript code (thrown exceptions) is modelled with Option
    or Except.
  - Presentational fields derived per registry entry (browserCompat,
    browserCompatSummary) are omitted from the feature-record embedding:
    they are display data computed independently per entry and never
    influence map keys, statuses, filtering or control flow.
-/

/-- Lowercases a string character by character, as String.prototype.toLowerCase
does on the ASCII identifiers the sources feed it. -/
def jsLower (s : String) : String :=
  String.mk (s.toList.map Char.toLower)

/-- JavaScript truthiness of an optional string: undefined and the empty
string are falsy. -/
def truthyStr (o : Option String) : Bool :=
  match o with
  | none => false
  | some s => s ≠ ""

/-- JavaScript truthiness of an optional boolean: undefined and false are
falsy. -/
def truthyBool (o : Option Bool) : Bool :=
  match o with
  | none => false
  | some b => b

/-- JavaScript truthiness of an optional number: undefined and 0 are falsy. -/
def truthyNum (o : Option Nat) : Bool :=
  match o with
  | none => false
  | some n => n ≠ 0

/-- Substring test on character lists: String.prototype.includes. -/
def listIncludes (hay sub : List Char) : Bool :=
  hay.tails.any (fun t => sub.isPrefixOf t)

/-- String.prototype.includes. -/
def jsIncludes (hay sub : String) : Bool :=
  listIncludes hay.toList sub.toList

/-- String.prototype.startsWith, on the underlying character lists. -/
def strStartsWith (s p : String) : Bool :=
  p.toList.isPrefixOf s.toList

/-- Splits a character list at dots, modelling String.prototype.split(".") . -/
def splitDots : List Char → List (List Char)
  | [] => [[]]
  | c :: cs =>
    let rest := splitDots cs
    if c = '.' then [] :: rest
    else
      match rest with
      | [] => [[c]]
      | r :: rs => (c :: r) :: rs

/-- String.prototype.trim: strips ASCII whitespace from both ends. -/
def jsTrim (s : String) : String :=
  String.mk (((s.toList.dropWhile Char.isWhitespace).reverse.dropWhile
    Char.isWhitespace).reverse)

/-- The JavaScript or-with-default idiom (a || b) on optional strings, where
an absent or empty string falls through to the default. -/
def jsOrStrD (o : Option String) (d : String) : String :=
  if truthyStr o then o.getD "" else d

/-- The JavaScript (a || b) idiom on two optional strings; an absent or empty
first operand falls through to the second. -/
def jsOrStr (a b : Option String) : Option String :=
  if truthyStr a then a else b

/-- Numeric value of a list of decimal digits (parseInt on a digit run). -/
def natOfDigits (ds : List Char) : Nat :=
  ds.foldl (fun acc c => acc * 10 + (c.toNat - '0'.toNat)) 0

/-!
## src/compiler/utils.js : parseTimeout

    function parseTimeout(delay) \x7b
        const re = /(?<digit>\d+)(?<unit>ms|s|m)*/;
        let m = delay.match(re)
        let d = parseInt(m.groups.digit)
        let unit = m.groups.unit
        ... switch (unit) \x7b case "s": *1000; case "m": *60000; default: \x7d
    \x7d

The regex is unanchored: the match starts at the first digit of the input,
the digit group is the maximal digit run there, and the unit group is the
LAST iteration of (ms|s|m)* matched greedily right after the digits, with
the alternatives tried in the order ms, s, m. If the input has no digit at
all, match returns null and m.groups throws a TypeError (modelled: none).
-/

/-- Models the capture of the (ms|s|m)* group: repeatedly match one of the
alternatives (ms first, then s, then m) at the head of the remaining input;
the captured group is the last alternative matched, if any. -/
def unitGroup : List Char → Option String → Option String
  | 'm' :: 's' :: rest, _ => unitGroup rest (some "ms")
  | 's' :: rest, _ => unitGroup rest (some "s")
  | 'm' :: rest, _ => unitGroup rest (some "m")
  | _, acc => acc

/-- src/compiler/utils.js parseTimeout. Returns none when the input contains
no digit (the JavaScript code throws a TypeError there). -/
def parseTimeout (delay : String) : Option Nat :=
  let fromFirstDigit := delay.toList.dropWhile (fun c => !c.isDigit)
  match fromFirstDigit with
  | [] => none
  | _ =>
    let ds := fromFirstDigit.takeWhile Char.isDigit
    let after := fromFirstDigit.dropWhile Char.isDigit
    let d := natOfDigits ds
    some (match unitGroup after none with
      | some "s" => d * 1000
      | some "m" => d * (60 * 1000)
      | _ => d)

/-!
## src/unnamed/part_008 (parser.js) : zod schema, parse, generateIR

The script document grammar. zod objects run in strip mode: keys that are
not declared in the schema are silently removed, not rejected. Two checks
delegated by zod to external validators are abstracted as always-true,
since no claim depends on them: z.string().url() on goto.url, and the
device-name enum taken from puppeteer KnownDevices on emulate.device.
The regex /(\d+)(ms|m|s)*/ used for the wait and assert timeout fields is
unanchored and only requires some digit to occur in the string.
-/

/-- A string passes z.string().regex(/(\d+)(ms|m|s)*/) iff it contains a
digit somewhere (the regex is unanchored and the unit part may be empty). -/
def hasDigit (s : String) : Bool :=
  s.toList.any Char.isDigit

/-- Click coordinates: \x7b x: z.number(), y: z.number() \x7d. -/
structure Coords where
  x : Int
  y : Int
deriving DecidableEq, Repr

/-- Raw click payload, before validation. -/
structure RawClick where
  selector : Option String := none
  coords : Option Coords := none
deriving DecidableEq, Repr

/-- Raw assert payload, before validation. The schema declares only
selector, exists, contains and timeout; the equals, matchesField (the
JavaScript matches key) and visible
fields can be supplied by a script but are not part of the schema and are
stripped by zod before the refinement runs. -/
structure RawAssert where
  selector : Option String := none
  existsField : Option Bool := none
  contains : Option String := none
  timeout : Option String := none
  equals : Option String := none
  matchesField : Option String := none
  visible : Option Bool := none
deriving DecidableEq, Repr

/-- Validated click payload. -/
structure ClickPayload where
  selector : Option String
  coords : Option Coords
deriving DecidableEq, Repr

/-- Validated assert payload (after zod stripped undeclared keys). -/
structure AssertStepPayload where
  selector : String
  existsField : Option Bool
  contains : Option String
  timeout : Option String
deriving DecidableEq, Repr

/-- click: z.object(\x7b selector optional, coords optional \x7d).refine(data =>
data.selector || data.coords). The refinement uses JavaScript truthiness:
an empty selector string does not satisfy it. -/
def validateClick (c : RawClick) : Except String ClickPayload :=
  if truthyStr c.selector || c.coords.isSome then
    Except.ok { selector := c.selector, coords := c.coords }
  else
    Except.error "click: Either selector or coords must be provided"

/-- assert: z.object(\x7b selector required, exists optional, contains
optional, timeout optional with the digit regex \x7d).refine(data =>
data.exists || data.contains). Undeclared keys (equals, matches, visible)
are stripped before the refinement, and the refinement uses JavaScript
truthiness: exists must be literally true and contains non-empty. -/
def validateAssert (a : RawAssert) : Except String AssertStepPayload :=
  match a.selector with
  | none => Except.error "assert.selector: Required"
  | some sel =>
    if a.timeout.all hasDigit then
      if truthyBool a.existsField || truthyStr a.contains then
        Except.ok { selector := sel, existsField := a.existsField,
                    contains := a.contains, timeout := a.timeout }
      else
        Except.error "assert: Either exists or contains must be provided"
    else
      Except.error "assert.timeout: Invalid"

/-- goto payload: url plus z.enum([...]).default("load").optional() for
waitUntil. Because optional wraps the default, a script that omits
waitUntil parses to undefined (the default is not applied). -/
structure GotoPayload where
  url : String
  waitUntil : Option String
deriving DecidableEq, Repr

/-- wait payload. -/
structure WaitPayload where
  timeout : String
deriving DecidableEq, Repr

/-- Payload of the single-selector commands waitForSelector, focus, hover. -/
structure SelectorPayload where
  selector : String
deriving DecidableEq, Repr

/-- screenshot payload. -/
structure ScreenshotPayload where
  path : String
  fullPage : Option Bool
deriving DecidableEq, Repr

/-- type payload; delay is z.string().default("0ms"), so it is always
present after validation, but its content is an arbitrary string. -/
structure TypePayload where
  selector : String
  text : String
  delay : String
deriving DecidableEq, Repr

/-- press payload. -/
structure PressPayload where
  key : String
deriving DecidableEq, Repr

/-- baseline_scan payload: availability is an array over the enum
["high", "low", "false"], year is a number. -/
structure BaselineScanPayload where
  availability : List String
  year : Int
deriving DecidableEq, Repr

/-- A validated step command. Each script step is a single-command object;
generateIR reads the first key of the step object as the command name. -/
inductive Step
  | newPage (b : Bool)
  | emulate (device : String)
  | goto (p : GotoPayload)
  | wait (p : WaitPayload)
  | waitForSelector (p : SelectorPayload)
  | typeCmd (p : TypePayload)
  | screenshot (p : ScreenshotPayload)
  | click (p : ClickPayload)
  | press (p : PressPayload)
  | focus (p : SelectorPayload)
  | hover (p : SelectorPayload)
  | baselineScan (p : BaselineScanPayload)
  | assertCmd (p : AssertStepPayload)
  | close (b : Bool)
deriving DecidableEq, Repr

/-- The command name of a step, as it appears as the key of the step object
and hence as the cmd field of its IR line. -/
def Step.cmd : Step → String
  | .newPage _ => "newPage"
  | .emulate _ => "emulate"
  | .goto _ => "goto"
  | .wait _ => "wait"
  | .waitForSelector _ => "waitForSelector"
  | .typeCmd _ => "type"
  | .screenshot _ => "screenshot"
  | .click _ => "click"
  | .press _ => "press"
  | .focus _ => "focus"
  | .hover _ => "hover"
  | .baselineScan _ => "baseline_scan"
  | .assertCmd _ => "assert"
  | .close _ => "close"

/-- A raw step command as deserialized from YAML, before schema validation. -/
inductive RawStep
  | newPage (b : Bool)
  | emulate (device : String)
  | goto (url : String) (waitUntil : Option String)
  | wait (timeout : String)
  | waitForSelector (selector : String)
  | typeCmd (selector text : String) (delay : Option String)
  | screenshot (path : String) (fullPage : Option Bool)
  | click (c : RawClick)
  | press (key : String)
  | focus (selector : String)
  | hover (selector : String)
  | baselineScan (availability : List String) (year : Int)
  | assertCmd (a : RawAssert)
  | close (b : Bool)
deriving DecidableEq, Repr

/-- The waitUntil enum of the goto command. -/
def waitUntilValues : List String :=
  ["domcontentloaded", "networkidle0", "networkidle2", "load"]

/-- stepsSchema: validates one step command. -/
def validateStep (s : RawStep) : Except String Step :=
  match s with
  | .newPage b => Except.ok (.newPage b)
  | .emulate d => Except.ok (.emulate d)
  | .goto url wu =>
    match wu with
    | none => Except.ok (.goto { url := url, waitUntil := none })
    | some w =>
      if waitUntilValues.contains w then
        Except.ok (.goto { url := url, waitUntil := some w })
      else Except.error "goto.waitUntil: Invalid enum value"
  | .wait t =>
    if hasDigit t then Except.ok (.wait { timeout := t })
    else Except.error "wait.timeout: Invalid"
  | .waitForSelector sel => Except.ok (.waitForSelector { selector := sel })
  | .typeCmd sel text delay =>
    Except.ok (.typeCmd { selector := sel, text := text, delay := delay.getD "0ms" })
  | .screenshot p fp => Except.ok (.screenshot { path := p, fullPage := fp })
  | .click c => (validateClick c).map .click
  | .press k => Except.ok (.press { key := k })
  | .focus sel => Except.ok (.focus { selector := sel })
  | .hover sel => Except.ok (.hover { selector := sel })
  | .baselineScan av yr =>
    if av.all (fun a => a = "high" || a = "low" || a = "false") then
      Except.ok (.baselineScan { availability := av, year := yr })
    else Except.error "baseline_scan.availability: Invalid enum value"
  | .assertCmd a => (validateAssert a).map .assertCmd
  | .close b => Except.ok (.close b)

/-- Viewport of the browser launch options. -/
structure Viewport where
  width : Int
  height : Int
deriving DecidableEq, Repr

/-- Validated launch options; headless is z.boolean().default(false). -/
structure LaunchOptions where
  executablePath : Option String
  headless : Bool
  viewport : Option Viewport
deriving DecidableEq, Repr

/-- Raw launch options. -/
structure RawLaunch where
  executablePath : Option String := none
  headless : Option Bool := none
  viewport : Option Viewport := none
deriving DecidableEq, Repr

/-- Raw browser configuration object, before the discriminated union on
mode is checked. -/
structure RawBrowser where
  mode : Option String := none
  launch : Option RawLaunch := none
  connect : Option (Option String) := none
deriving DecidableEq, Repr

/-- Validated browser configuration (browserConfigSchema): discriminated
union on mode, each mode requiring its own sub-object. -/
inductive BrowserConfig
  | launch (opts : LaunchOptions)
  | connect (wsUrl : String)
deriving DecidableEq, Repr

/-- The mode tag of a validated browser configuration. -/
def BrowserConfig.mode : BrowserConfig → String
  | .launch _ => "launch"
  | .connect _ => "connect"

/-- browserConfigSchema: z.discriminatedUnion("mode", [launch-branch,
connect-branch]). In the connect raw object the inner value is the wsUrl
field, itself optional before validation. -/
def validateBrowser (b : RawBrowser) : Except String BrowserConfig :=
  match b.mode with
  | some "launch" =>
    match b.launch with
    | none => Except.error "browser.launch: Required"
    | some l =>
      Except.ok (.launch { executablePath := l.executablePath,
                           headless := l.headless.getD false,
                           viewport := l.viewport })
  | some "connect" =>
    match b.connect with
    | none => Except.error "browser.connect: Required"
    | some w =>
      match w with
      | none => Except.error "browser.connect.wsUrl: Required"
      | some url => Except.ok (.connect url)
  | _ => Except.error "browser.mode: Invalid discriminator value"

/-- The three supported backends: z.enum(["puppeteer", "playwright",
"selenium"]). -/
inductive Framework
  | puppeteer
  | playwright
  | selenium
deriving DecidableEq, Repr

/-- The literal tag of a framework. -/
def Framework.tag : Framework → String
  | .puppeteer => "puppeteer"
  | .playwright => "playwright"
  | .selenium => "selenium"

/-- A raw script document as deserialized from YAML. -/
structure RawDoc where
  framework : Option String := none
  browser : Option RawBrowser := none
  steps : Option (List RawStep) := none
deriving DecidableEq, Repr

/-- A validated script document. -/
structure Document where
  framework : Framework
  browser : BrowserConfig
  steps : Option (List Step)
deriving DecidableEq, Repr

/-- The top-level schema: framework enum, browser discriminated union,
optional list of steps. The error string identifies the offending field,
as a ZodError does. -/
def validateDoc (d : RawDoc) : Except String Document :=
  match d.framework with
  | none => Except.error "framework: Required"
  | some f =>
    let fw : Option Framework :=
      if f = "puppeteer" then some .puppeteer
      else if f = "playwright" then some .playwright
      else if f = "selenium" then some .selenium
      else none
    match fw with
    | none => Except.error "framework: Invalid enum value"
    | some fw =>
      match d.browser with
      | none => Except.error "browser: Required"
      | some rb => do
        let bc ← validateBrowser rb
        match d.steps with
        | none => Except.ok { framework := fw, browser := bc, steps := none }
        | some rawSteps => do
          let steps ← rawSteps.mapM validateStep
          Except.ok { framework := fw, browser := bc, steps := some steps }

/-- The parse function of parser.js: schema.parse wrapped in try/catch. On
a schema violation the ZodError is only logged with console.error and the
function falls through, returning undefined (modelled as none). -/
def parseScript (d : RawDoc) : Option Document :=
  (validateDoc d).toOption

/-- One line of the IR: a command name with its payload. The framework
line carries the raw tag string, as compile reads it back as a string. -/
inductive IRLine
  | framework (tag : String)
  | browser (cfg : BrowserConfig)
  | step (s : Step)
  | eof (operation : String)
deriving DecidableEq, Repr

/-- The cmd field of an IR line. -/
def IRLine.cmd : IRLine → String
  | .framework _ => "framework"
  | .browser _ => "browser"
  | .step s => s.cmd
  | .eof _ => "EOF"

/-- The mode read-back performed by generateIR: a find over the ast for the
browser line, with optional chaining defaulting to launch. -/
def irMode (ast : List IRLine) : String :=
  match ast.find? (fun l => l.cmd = "browser") with
  | some (IRLine.browser cfg) => cfg.mode
  | _ => "launch"

/-- The operation field of the synthetic EOF teardown command. -/
def eofOperation (mode : String) : String :=
  if mode = "launch" then "close" else "disconnect"

/-- parser.js generateIR: flattens the validated document into IR lines in
document key order (framework, browser, then each step in order), then
appends the synthetic EOF teardown whose operation is close when the
browser mode is launch and disconnect otherwise. -/
def generateIR (doc : Document) : List IRLine :=
  let ast : List IRLine :=
    [IRLine.framework doc.framework.tag, IRLine.browser doc.browser]
      ++ (doc.steps.getD []).map IRLine.step
  ast ++ [IRLine.eof (eofOperation (irMode ast))]

/-!
## src/compiler/compiler.js : framework handlers and compile

Dispatch is by method name: handle(cmd, value) invokes this["handle" +
capitalize(cmd)] when such a method exists and returns null otherwise, so
a newPage command (present in the schema but with no handleNewPage method
on any handler) is silently skipped by every backend. The handlers
handleScroll and PlaywrightHandler.handleScan exist in the source but no
schema-valid document can put a scroll or scan command into the IR, so
they are unreachable from compile and are not part of this embedding.

JSON.stringify pretty-printing is modelled by compact renderers below:
only the serialized content, never its whitespace, is relevant to any
claim. The multi-line checkAssertion helper text each handler splices
into its prologue is abbreviated to a stub string; its runtime semantics
is modelled separately by checkAssertion further down.
-/

/-- Errors compile can raise (JavaScript TypeErrors thrown mid-loop). -/
inductive CompileError
  | handlerUndefined
  | parseTimeoutNullMatch
  | coordsUndefined
deriving DecidableEq, Repr

/-- JSON string quoting (script values are assumed escape-free). -/
def q (s : String) : String := "\"" ++ s ++ "\""

/-- JSON rendering of a boolean. -/
def jsonBool (b : Bool) : String := if b then "true" else "false"

/-- JSON rendering of an array of strings. -/
def jsonStrArray (xs : List String) : String :=
  "[" ++ String.intercalate "," (xs.map q) ++ "]"

/-- JSON.stringify of the launch options object. -/
def renderLaunch (o : LaunchOptions) : String :=
  "\x7b" ++ String.intercalate ", "
    ((match o.executablePath with
      | some p => [q "executablePath" ++ ": " ++ q p]
      | none => [])
     ++ [q "headless" ++ ": " ++ jsonBool o.headless]
     ++ (match o.viewport with
      | some v => [q "viewport" ++ ": \x7b" ++ q "width" ++ ": " ++ toString v.width
          ++ ", " ++ q "height" ++ ": " ++ toString v.height ++ "\x7d"]
      | none => [])) ++ "\x7d"

/-- JSON.stringify of the screenshot payload. -/
def renderScreenshot (p : ScreenshotPayload) : String :=
  "\x7b" ++ String.intercalate ", "
    ([q "path" ++ ": " ++ q p.path]
     ++ (match p.fullPage with
      | some b => [q "fullPage" ++ ": " ++ jsonBool b]
      | none => [])) ++ "\x7d"

/-- JSON.stringify of the assert payload; undefined fields are dropped. -/
def renderAssertValue (p : AssertStepPayload) : String :=
  "\x7b" ++ String.intercalate ", "
    ([q "selector" ++ ": " ++ q p.selector]
     ++ (match p.existsField with
      | some b => [q "exists" ++ ": " ++ jsonBool b]
      | none => [])
     ++ (match p.contains with
      | some c => [q "contains" ++ ": " ++ q c]
      | none => [])
     ++ (match p.timeout with
      | some t => [q "timeout" ++ ": " ++ q t]
      | none => [])) ++ "\x7d"

/-- The object literal each handleBaseline_scan serializes into the
generated call: includeAvailability and baselineYearThreshold come from
the scan command payload, includeNotBaseline and strictness are the fixed
literals true and relaxed, and the delay key (value.delay is undefined,
the schema has no such field) is dropped by JSON.stringify. -/
structure EmittedScanConfig where
  includeAvailability : List String
  baselineYearThreshold : Int
  includeNotBaseline : Bool
  strictness : String
deriving DecidableEq, Repr

/-- Builds the emitted scan configuration from a baseline_scan payload,
exactly as the object literal in each handleBaseline_scan method does. -/
def emittedScanConfig (v : BaselineScanPayload) : EmittedScanConfig :=
  { includeAvailability := v.availability,
    baselineYearThreshold := v.year,
    includeNotBaseline := true,
    strictness := "relaxed" }

/-- JSON.stringify of the emitted scan configuration. -/
def renderScanConfig (c : EmittedScanConfig) : String :=
  "\x7b" ++ q "includeAvailability" ++ ":" ++ jsonStrArray c.includeAvailability
    ++ "," ++ q "baselineYearThreshold" ++ ":" ++ toString c.baselineYearThreshold
    ++ "," ++ q "includeNotBaseline" ++ ":" ++ jsonBool c.includeNotBaseline
    ++ "," ++ q "strictness" ++ ":" ++ q c.strictness ++ "\x7d"

/-- The page-like binding each backend passes to helper calls. -/
def pageExpr : Framework → String
  | .puppeteer => "page"
  | .playwright => "page"
  | .selenium => "driver"

/-- The baselineScanPipeline call synthesized by handleBaseline_scan. -/
def baselineScanCall (fw : Framework) (v : BaselineScanPayload) : String :=
  "await baselineScanPipeline(" ++ pageExpr fw ++ ", "
    ++ renderScanConfig (emittedScanConfig v)
    ++ ", \x27" ++ fw.tag ++ "\x27);\n"

/-- FrameworkHandler.getAdditionalCode, shared by the three handlers. -/
def getAdditionalCode : String :=
  "import \x7b parseTimeout, sleep \x7d from \"./utils.js\";\nimport \x7b baselineScanPipeline \x7d from \"./baseline.js\";\n"

/-- Stub for the multi-line checkAssertion helper text each handler
splices into its prologue (getAssertionCode); the helper semantics is
modelled by checkAssertion below. -/
def getAssertionCode (fw : Framework) : String :=
  "\nasync function checkAssertion(" ++ pageExpr fw ++ ", options) \x7b ... \x7d\n"

/-- handleFramework of each backend: additional code, backend import,
bindings, assertion helper. -/
def handleFramework : Framework → String
  | .puppeteer => getAdditionalCode
      ++ "\nimport puppeteer, \x7b KnownDevices \x7d from \"puppeteer\";\nlet page, browser;\n"
      ++ getAssertionCode .puppeteer ++ "\n"
  | .playwright => getAdditionalCode
      ++ "\nimport \x7b chromium \x7d from \x27playwright\x27\nlet page, browser, context;\n"
      ++ getAssertionCode .playwright ++ "\n"
  | .selenium => getAdditionalCode
      ++ "\nimport fs from \"node:fs\";\nimport \x7b Builder, By, until \x7d from \x27selenium-webdriver\x27\nlet driver;\n"
      ++ getAssertionCode .selenium ++ "\n"

/-- handleBrowser of each backend; the validated config has mode launch or
connect, the only two cases of the switch. -/
def handleBrowser : Framework → BrowserConfig → String
  | .puppeteer, .launch o =>
    "browser = await puppeteer.launch(" ++ renderLaunch o
      ++ ")\npage = await browser.newPage();\n"
  | .puppeteer, .connect url =>
    "browser = await puppeteer.connect(\x7b \"browserWSEndpoint\": \"" ++ url
      ++ "\" \x7d)\npage = await browser.newPage();\n"
  | .playwright, .launch o =>
    "browser = await chromium.launch(" ++ renderLaunch o
      ++ ")\ncontext = await browser.newContext()\npage = await context.newPage();\n"
  | .playwright, .connect url =>
    "browser = await chromium.connectOverCDP(\"" ++ url
      ++ "\")\npage = await browser.newPage();\n"
  | .selenium, .launch _ =>
    "driver = await new Builder().forBrowser(\x27chrome\x27).build();\n"
  | .selenium, .connect url =>
    "driver = await new Builder().forBrowser(\"chrome\").usingServer(\"" ++ url
      ++ "\").build()\n"

/-- handleEmulate of each backend. -/
def handleEmulate : Framework → String → String
  | .puppeteer, device => "await page.emulate(KnownDevices[\"" ++ device ++ "\"])\n"
  | .playwright, _ => "// Note: Device emulation should be set during context creation in Playwright\n"
  | .selenium, _ => "// Device emulation requires specific Chrome options in Selenium\n"

/-- Template-literal rendering of a possibly-undefined string value. -/
def renderOptStr (o : Option String) : String :=
  match o with
  | some s => s
  | none => "undefined"

/-- handleGoto of each backend; puppeteer interpolates value.waitUntil even
when the validated document left it undefined. -/
def handleGoto : Framework → GotoPayload → String
  | .puppeteer, p =>
    "await page.goto(\"" ++ p.url ++ "\", \x7b waitUntil: \"" ++ renderOptStr p.waitUntil ++ "\" \x7d)\n"
  | .playwright, p => "await page.goto(\"" ++ p.url ++ "\")\n"
  | .selenium, p => "await driver.get(\"" ++ p.url ++ "\")\n"

/-- handleWaitForSelector of each backend. -/
def handleWaitForSelector : Framework → SelectorPayload → String
  | .puppeteer, p => "await page.waitForSelector(\"" ++ p.selector ++ "\")\n"
  | .playwright, p => "await page.waitForSelector(\"" ++ p.selector ++ "\")\n"
  | .selenium, p =>
    "await driver.wait(until.elementLocated(By.css(\"" ++ p.selector ++ "\")), 10000)\n"

/-- handleScreenshot of each backend. -/
def handleScreenshot : Framework → ScreenshotPayload → String
  | .puppeteer, p => "await page.screenshot(" ++ renderScreenshot p ++ ")\n"
  | .playwright, p => "await page.screenshot(" ++ renderScreenshot p ++ ")\n"
  | .selenium, p =>
    "await driver.takeScreenshot().then(data => fs.writeFileSync(\"" ++ p.path
      ++ "\", data, \x27base64\x27))\n"

/-- handleType of each backend. Puppeteer and playwright call parseTimeout
on value.delay while generating, and parseTimeout throws a TypeError when
the delay string contains no digit; selenium does not parse the delay. -/
def handleType (fw : Framework) (p : TypePayload) : Except CompileError (Option String) :=
  match fw with
  | .puppeteer =>
    match parseTimeout p.delay with
    | none => Except.error .parseTimeoutNullMatch
    | some d => Except.ok (some ("await page.type(\"" ++ p.selector ++ "\", \"" ++ p.text
        ++ "\", \x7b \"delay\": " ++ toString d ++ " \x7d)\n"))
  | .playwright =>
    match parseTimeout p.delay with
    | none => Except.error .parseTimeoutNullMatch
    | some d => Except.ok (some ("await page.fill(\"" ++ p.selector
        ++ "\", \"\");\nawait page.type(\"" ++ p.selector ++ "\", \"" ++ p.text
        ++ "\", \x7b delay: " ++ toString d ++ " \x7d)\n"))
  | .selenium =>
    Except.ok (some ("await driver.findElement(By.css(\"" ++ p.selector
      ++ "\")).clear();\nawait driver.findElement(By.css(\"" ++ p.selector
      ++ "\")).sendKeys(\"" ++ p.text ++ "\")\n"))

/-- handleClick of each backend: JavaScript truthiness on value.selector
selects the branch, and the coordinate branch dereferences value.coords
(a TypeError when the payload has neither, which validation excludes). -/
def handleClick (fw : Framework) (p : ClickPayload) : Except CompileError (Option String) :=
  if truthyStr p.selector then
    Except.ok (some (match fw with
      | .puppeteer => "await page.locator(\"" ++ p.selector.getD "" ++ "\").click()\n"
      | .playwright => "await page.click(\"" ++ p.selector.getD "" ++ "\")\n"
      | .selenium => "await driver.findElement(By.css(\"" ++ p.selector.getD "" ++ "\")).click()\n"))
  else
    match p.coords with
    | none => Except.error .coordsUndefined
    | some c => Except.ok (some (match fw with
      | .puppeteer => "await page.mouse.click(" ++ toString c.x ++ ", " ++ toString c.y ++ ")\n"
      | .playwright => "await page.mouse.click(" ++ toString c.x ++ ", " ++ toString c.y ++ ")\n"
      | .selenium => "await driver.actions().move(\x7bx: " ++ toString c.x
          ++ ", y: " ++ toString c.y ++ "\x7d).click().perform()\n"))

/-- handlePress of each backend. -/
def handlePress : Framework → PressPayload → String
  | .puppeteer, p => "await page.keyboard.press(\"" ++ p.key ++ "\")\n"
  | .playwright, p => "await page.keyboard.press(\"" ++ p.key ++ "\")\n"
  | .selenium, p => "await driver.actions().sendKeys(\"" ++ p.key ++ "\").perform()\n"

/-- handleFocus of each backend. -/
def handleFocus : Framework → SelectorPayload → String
  | .puppeteer, p => "await page.focus(\"" ++ p.selector ++ "\")\n"
  | .playwright, p => "await page.focus(\"" ++ p.selector ++ "\")\n"
  | .selenium, p => "await driver.findElement(By.css(\"" ++ p.selector ++ "\")).click()\n"

/-- handleHover of each backend. -/
def handleHover : Framework → SelectorPayload → String
  | .puppeteer, p => "await page.hover(\"" ++ p.selector ++ "\")\n"
  | .playwright, p => "await page.hover(\"" ++ p.selector ++ "\")\n"
  | .selenium, p =>
    "await driver.actions().move(\x7borigin: driver.findElement(By.css(\"" ++ p.selector
      ++ "\"))\x7d).perform()\n"

/-- handleClose of each backend (the page- or driver-level close). -/
def handleClose : Framework → String
  | .puppeteer => "await page.close()\n"
  | .playwright => "await page.close()\n"
  | .selenium => "await driver.close()\n"

/-- handleWait of each backend (identical text). -/
def handleWait (p : WaitPayload) : String :=
  "await sleep(\"" ++ p.timeout ++ "\")\n"

/-- handleAssert of each backend. -/
def handleAssert (fw : Framework) (p : AssertStepPayload) : String :=
  "await checkAssertion(" ++ pageExpr fw ++ ", " ++ renderAssertValue p ++ ")\n"

/-- handleEOF of each backend: puppeteer distinguishes close from
disconnect by the teardown operation, playwright always closes, selenium
always quits. -/
def handleEOF : Framework → String → String
  | .puppeteer, op => if op = "close" then "await browser.close()\n" else "await browser.disconnect()\n"
  | .playwright, _ => "await browser.close()\n"
  | .selenium, _ => "await driver.quit()\n"

/-- FrameworkHandler.handle: method-name dispatch over the command of an
IR line. A command with no matching handler method (newPage) yields null
on every backend; handlers that run parseTimeout or dereference a missing
coords object can throw, modelled by Except. -/
def handle (fw : Framework) (line : IRLine) : Except CompileError (Option String) :=
  match line with
  | .framework _ => Except.ok (some (handleFramework fw))
  | .browser cfg => Except.ok (some (handleBrowser fw cfg))
  | .eof op => Except.ok (some (handleEOF fw op))
  | .step s =>
    match s with
    | .newPage _ => Except.ok none
    | .emulate d => Except.ok (some (handleEmulate fw d))
    | .goto p => Except.ok (some (handleGoto fw p))
    | .wait p => Except.ok (some (handleWait p))
    | .waitForSelector p => Except.ok (some (handleWaitForSelector fw p))
    | .typeCmd p => handleType fw p
    | .screenshot p => Except.ok (some (handleScreenshot fw p))
    | .click p => handleClick fw p
    | .press p => Except.ok (some (handlePress fw p))
    | .focus p => Except.ok (some (handleFocus fw p))
    | .hover p => Except.ok (some (handleHover fw p))
    | .baselineScan p => Except.ok (some (baselineScanCall fw p))
    | .assertCmd p => Except.ok (some (handleAssert fw p))
    | .close _ => Except.ok (some (handleClose fw))

/-- The frameworkHandlers lookup object: the three literal tags map to a
handler, any other string (including the stringified null of an unset
currentFramework) maps to undefined. -/
def frameworkHandlers (tag : String) : Option Framework :=
  if tag = "puppeteer" then some .puppeteer
  else if tag = "playwright" then some .playwright
  else if tag = "selenium" then some .selenium
  else none

/-- The per-step acknowledgement marker appended after each successfully
handled command. -/
def ackText (cmd : String) : String :=
  "console.log(\"✅ Step " ++ cmd ++ "\")\n"

/-- The loop body of compile, after currentFramework was resolved: fold
over the IR appending each truthy generated fragment followed by its
acknowledgement marker. When the resolved handler is undefined the first
iteration throws a TypeError. -/
def compileAux (h : Option Framework) : List IRLine → Except CompileError String
  | [] => Except.ok ""
  | line :: rest =>
    match h with
    | none => Except.error .handlerUndefined
    | some fw => do
      let g ← handle fw line
      let piece := match g with
        | some c => if c = "" then "" else c ++ ackText line.cmd
        | none => ""
      let restCode ← compileAux h rest
      Except.ok (piece ++ restCode)

/-- The update compile performs on the module-level currentFramework
variable: the first framework line of the IR, if any, otherwise the value
left behind by the previous invocation. -/
def nextFramework (st : Option String) (ir : List IRLine) : Option String :=
  match ir.find? (fun l => l.cmd = "framework") with
  | some (IRLine.framework tag) => some tag
  | _ => st

/-- compiler.js compile, with the module-level mutable currentFramework
made explicit: takes the state left by the previous invocation, returns
the generated program text (or the thrown error) together with the state
left for the next invocation. -/
def compile (st : Option String) (ir : List IRLine) :
    Except CompileError String × Option String :=
  let st2 := nextFramework st ir
  (compileAux (st2.bind frameworkHandlers) ir, st2)

/-- The sequence of acknowledgement markers a compilation emits, read off
by the same fold as compileAux. -/
def ackMarkersAux (h : Option Framework) : List IRLine → Except CompileError (List String)
  | [] => Except.ok []
  | line :: rest =>
    match h with
    | none => Except.error .handlerUndefined
    | some fw => do
      let g ← handle fw line
      let ms ← ackMarkersAux h rest
      Except.ok ((match g with
        | some c => if c = "" then [] else [ackText line.cmd]
        | none => []) ++ ms)

/-- The acknowledgement markers of a whole compile invocation. -/
def ackMarkers (st : Option String) (ir : List IRLine) : Except CompileError (List String) :=
  ackMarkersAux ((nextFramework st ir).bind frameworkHandlers) ir

/-!
## src/compiler/utils.js checkAssertion (and the identical per-backend
getAssertionCode helpers of compiler.js)

The helper's interaction with the live page is abstracted into a PageEnv:
whether the selector resolves to an element, the trimmed text content of
that element, the backend visibility primitive result, whether the
optional waitForSelector call succeeds, and an oracle for
new RegExp(pattern).test(text). All three backends share this control
flow and differ only in which primitives supply the environment.
-/

/-- The options object of a compiled checkAssertion call. The exists and
matches keys are Lean keywords and are embedded as existsField and
matchesField. -/
structure AssertOptions where
  selector : String := ""
  timeout : Option String := none
  existsField : Option Bool := none
  contains : Option String := none
  equals : Option String := none
  matchesField : Option String := none
  visible : Option Bool := none
  throwOnFail : Option Bool := none
deriving DecidableEq, Repr

/-- The page-side facts checkAssertion observes. -/
structure PageEnv where
  elementPresent : Bool
  textContent : String
  isVisible : Bool
  waitSucceeds : Bool
  regexTest : String → String → Bool

/-- The observable outcome of a checkAssertion call: either an error was
raised to the caller, or the helper returned a boolean. -/
inductive AssertOutcome
  | raised
  | returned (b : Bool)
deriving DecidableEq, Repr

/-- The assertion predicate chain of checkAssertion: the first truthy
option among contains, equals, matches, exists (by key presence), visible
(by key presence) decides the result; with none of them the result stays
true. The text is the trimmed element text, or the empty string when the
element is absent. -/
def assertionResult (env : PageEnv) (opts : AssertOptions) : Bool :=
  let text := if env.elementPresent then env.textContent else ""
  if truthyStr opts.contains then jsIncludes text (opts.contains.getD "")
  else if truthyStr opts.equals then text = opts.equals.getD ""
  else if truthyStr opts.matchesField then env.regexTest (opts.matchesField.getD "") text
  else if opts.existsField.isSome then
    (if truthyBool opts.existsField then env.elementPresent else !env.elementPresent)
  else if opts.visible.isSome then
    let isVis := if env.elementPresent then env.isVisible else false
    (if truthyBool opts.visible then isVis else !isVis)
  else true

/-- checkAssertion: the whole body runs in a try block whose catch logs
the error and rethrows unless options.throwOnFail is literally false, in
which case it returns false. Inside the try: a supplied timeout waits for
the selector (throwing on failure); a missing element throws unless the
assertion is exists: false; a false assertion result throws under the
same throwOnFail policy; otherwise the boolean result is returned. -/
def checkAssertion (env : PageEnv) (opts : AssertOptions) : AssertOutcome :=
  let onThrow : AssertOutcome :=
    if opts.throwOnFail = some false then .returned false else .raised
  if truthyStr opts.timeout ∧ ¬env.waitSucceeds then onThrow
  else if ¬env.elementPresent ∧ ¬(opts.existsField = some false) then onThrow
  else if assertionResult env opts then .returned true
  else if opts.throwOnFail = some false then .returned false
  else .raised

/-!
## src/compiler/compiler.js run : the compile pipeline entry point

run(code, io) parses the YAML text, validates it, generates the IR,
compiles it, writes output.js and spawns the child process. Because
parser.js parse swallows the ZodError (it logs it and returns undefined),
an invalid script reaches generateIR as undefined and the pipeline fails
there with a TypeError from Object.keys(undefined); the caller of run
receives that TypeError, never the ZodError. Program text is written only
after compile succeeds, in the ok branch.
-/

/-- Errors the caller of run can observe. The schemaViolation constructor
exists to express what run could surface but never does: the ZodError is
swallowed inside parse. -/
inductive RunError
  | generateIRTypeError
  | compileFailure (e : CompileError)
  | schemaViolation (field : String)
deriving DecidableEq, Repr

/-- Whether a run error is a schema violation identifying a field. -/
def RunError.isSchemaViolation : RunError → Bool
  | .schemaViolation _ => true
  | _ => false

/-- compiler.js run, with the module-level currentFramework state made
explicit as in compile. Returns the emitted program text or the error the
caller observes, together with the state left behind. -/
def run (st : Option String) (raw : RawDoc) : Except RunError String × Option String :=
  match parseScript raw with
  | none => (Except.error .generateIRTypeError, st)
  | some doc =>
    match compile st (generateIR doc) with
    | (Except.ok code, st2) => (Except.ok code, st2)
    | (Except.error e, st2) => (Except.error (.compileFailure e), st2)

/-- The side condition under which compile cannot throw on a validated
document: every type step carries a delay whose string contains a digit
(parseTimeout succeeds). The schema does not enforce this: delay is a
plain z.string() with default 0ms. -/
def typeDelaysParse (doc : Document) : Prop :=
  ∀ s ∈ doc.steps.getD [], ∀ p, s = Step.typeCmd p → (parseTimeout p.delay).isSome

/-!
## src/compiler/baseline.js : feature lookup map

The web-features registry is the process-wide dataset the file imports;
following the design note in the spec it is modelled as an explicit
immutable association list passed to every function that reads it.
Baseline dates are ISO YYYY-MM-DD strings; new Date(s).getFullYear() is
modelled as the first four characters (respectively their numeric value).
-/

/-- The three baseline status labels. In the source these are the strings
Not Baseline, Low Baseline and High Baseline. -/
inductive BaselineStatus
  | notBaseline
  | lowBaseline
  | highBaseline
deriving DecidableEq, Repr

/-- The raw status.baseline value of a registry entry: false, the string
low, true, the string high, or anything else / absent. -/
inductive BaselineRaw
  | rFalse
  | rLow
  | rTrue
  | rHigh
  | rNone
deriving DecidableEq, Repr

/-- The three-way status classification both loops of
createFeatureLookupMap perform: false maps to Not Baseline, low to Low
Baseline, true or high to High Baseline, anything else to no label. -/
def statusLabelOf : BaselineRaw → Option BaselineStatus
  | .rFalse => some .notBaseline
  | .rLow => some .lowBaseline
  | .rTrue => some .highBaseline
  | .rHigh => some .highBaseline
  | .rNone => none

/-- The status object of a registry entry. -/
structure FeatureStatus where
  baseline : BaselineRaw := .rNone
  baseline_high_date : Option String := none
  baseline_low_date : Option String := none
deriving DecidableEq, Repr

/-- One web-features registry entry as baseline.js consumes it. -/
structure FeatureData where
  compat_features : Option (List String) := none
  status : Option FeatureStatus := none
  description : Option String := none
deriving DecidableEq, Repr

/-- The registry: feature id to feature data, in Object.entries order. -/
abbrev FeatureRegistry := List (String × FeatureData)

/-- Bracket lookup features[id]. -/
def featuresGet (features : FeatureRegistry) (id : String) : Option FeatureData :=
  (features.find? (fun e => e.1 = id)).map (fun e => e.2)

/-- new Date(s).getFullYear().toString() for an ISO date string. -/
def yearOfDateStr (s : String) : String :=
  String.mk (s.toList.take 4)

/-- new Date(s).getFullYear() as a number, for the threshold comparison. -/
def dateYearNat (s : String) : Nat :=
  natOfDigits (s.toList.take 4)

/-- baseline.js getBaselineYear: high date first, then low date, both
under JavaScript truthiness. -/
def getBaselineYear (status : Option FeatureStatus) : Option String :=
  match status with
  | none => none
  | some st =>
    let dateStr := jsOrStr st.baseline_high_date st.baseline_low_date
    if truthyStr dateStr then some (yearOfDateStr (dateStr.getD "")) else none

/-- The analysis configuration a scan carries. -/
structure AnalysisConfig where
  includeAvailability : List String
  baselineYearThreshold : Option Nat := none
  includeNotBaseline : Bool
  strictness : String := "normal"
deriving DecidableEq, Repr

/-- A feature record stored in the lookup maps. Presentational fields
(browserCompat, browserCompatSummary) are omitted, see the header. -/
structure FeatureRecord where
  featureId : String
  status : BaselineStatus
  description : Option String
  baselineYear : Option String
  compatKey : String
deriving DecidableEq, Repr

/-- Map.set: replace in place on an existing key, append otherwise. -/
def mapSet {α : Type} : List (String × α) → String → α → List (String × α)
  | [], k, v => [(k, v)]
  | (k1, v1) :: rest, k, v =>
    if k1 = k then (k, v) :: rest else (k1, v1) :: mapSet rest k v

/-- Map.get. -/
def mapGet {α : Type} (m : List (String × α)) (k : String) : Option α :=
  (m.find? (fun e => e.1 = k)).map (fun e => e.2)

/-- Map.has. -/
def mapHas {α : Type} (m : List (String × α)) (k : String) : Bool :=
  (mapGet m k).isSome

/-- baseline.js shouldIncludeStatus: the pure status filter. -/
def shouldIncludeStatus (status : BaselineStatus) (config : AnalysisConfig) : Bool :=
  if status = .notBaseline ∧ ¬config.includeNotBaseline then false
  else if status = .lowBaseline ∧ ¬(config.includeAvailability.contains "low") then false
  else if status = .highBaseline ∧ ¬(config.includeAvailability.contains "high") then false
  else true

/-- baseline.js shouldIncludeFeature: the status filter plus the year
threshold check; a feature whose high-baseline date falls before January
first of the threshold year is excluded. -/
def shouldIncludeFeature (featureData : FeatureData) (status : BaselineStatus)
    (config : AnalysisConfig) : Bool :=
  if status = .notBaseline ∧ ¬config.includeNotBaseline then false
  else if status = .lowBaseline ∧ ¬(config.includeAvailability.contains "low") then false
  else if status = .highBaseline ∧ ¬(config.includeAvailability.contains "high") then false
  else
    let hd := featureData.status.bind (fun st => st.baseline_high_date)
    if truthyNum config.baselineYearThreshold ∧ truthyStr hd then
      if dateYearNat (hd.getD "") < config.baselineYearThreshold.getD 0 then false
      else true
    else true

/-- The basicProperties skip list of the main map-construction loop. -/
def basicProperties : List String :=
  ["top", "right", "bottom", "left", "margin", "padding", "width", "height",
   "color", "background", "border", "font-family", "display", "position",
   "float", "text-align", "overflow", "cursor", "content", "align-items",
   "justify-content", "flex-direction", "align-content", "transition",
   "animation", "outline", "resize", "min-width", "max-width",
   "min-height", "max-height", "align-self", "clip-path"]

/-- The isSpecificFeature test: substring membership of six markers in the
feature id. -/
def isSpecificFeature (featureId : String) : Bool :=
  jsIncludes featureId "anchor" || jsIncludes featureId "ui"
    || jsIncludes featureId "container" || jsIncludes featureId "popover"
    || jsIncludes featureId "layer" || jsIncludes featureId "view-timeline"

/-- Extracts the bare identifier of a compat key: the third dot-component,
for keys under the four css prefixes, else nothing. -/
def compatKeyIdent (ck : String) : Option String :=
  if strStartsWith ck "css.properties." || strStartsWith ck "css.at-rules."
      || strStartsWith ck "css.selectors." || strStartsWith ck "css.types." then
    ((splitDots ck.toList).get? 2).map String.mk
  else none

/-- The feature record built for one compat key of one registry entry. -/
def mkRecord (featureId : String) (label : BaselineStatus) (data : FeatureData)
    (ck : String) : FeatureRecord :=
  { featureId := featureId, status := label, description := data.description,
    baselineYear := getBaselineYear data.status, compatKey := ck }

/-- The priority insertion of the main loop: set the key unless it is
already present with the incoming status High Baseline (the override
condition is: key absent, or the incoming status is Not Baseline or Low
Baseline). -/
def lookupInsert (lookupMap : List (String × FeatureRecord)) (nk : String)
    (label : BaselineStatus) (rec : FeatureRecord) : List (String × FeatureRecord) :=
  if !(mapHas lookupMap nk) || label = .notBaseline || label = .lowBaseline then
    mapSet lookupMap nk rec
  else lookupMap

/-- Processing of a single compat key: always recorded in the specific
map; recorded in the main map only when a bare identifier can be
extracted, the identifier is not a universally supported basic property
(unless the feature id marks a specific feature), and the priority rule
admits it. -/
def processCompatKey (featureId : String) (label : BaselineStatus) (data : FeatureData)
    (acc : List (String × FeatureRecord) × List (String × FeatureRecord)) (ck : String) :
    List (String × FeatureRecord) × List (String × FeatureRecord) :=
  let specific := mapSet acc.2 (jsLower ck) (mkRecord featureId label data ck)
  let lookup :=
    match compatKeyIdent ck with
    | none => acc.1
    | some key =>
      let nk := jsLower key
      if !(basicProperties.contains nk) || isSpecificFeature featureId then
        lookupInsert acc.1 nk label (mkRecord featureId label data ck)
      else acc.1
  (lookup, specific)

/-- Processing of one registry entry of the main loop: skip entries with
no compat_features, no recognizable baseline status, or excluded by the
configuration; otherwise fold over the compat keys. -/
def processRegistryEntry (config : AnalysisConfig)
    (acc : List (String × FeatureRecord) × List (String × FeatureRecord))
    (entry : String × FeatureData) :
    List (String × FeatureRecord) × List (String × FeatureRecord) :=
  match entry.2.compat_features with
  | none => acc
  | some cks =>
    match statusLabelOf ((entry.2.status.map (fun st => st.baseline)).getD .rNone) with
    | none => acc
    | some label =>
      if shouldIncludeFeature entry.2 label config then
        cks.foldl (processCompatKey entry.1 label entry.2) acc
      else acc

/-- The hardcoded specific mappings appended after the main loop. -/
def specificMappings : List (String × String) :=
  [("backdrop", "backdrop"), ("clamp", "min-max-clamp"), ("oklch", "oklab"),
   ("oklab", "oklab"), ("container", "container-queries"),
   ("anchor", "anchor-positioning"), ("popover", "popover"),
   ("layer", "cascade-layers")]

/-- One manual mapping: if the target feature exists in the registry and
has a recognizable status, set the key unconditionally (no priority
rule), with a manual- compat key. -/
def applyManualMapping (features : FeatureRegistry)
    (lookup : List (String × FeatureRecord)) (kv : String × String) :
    List (String × FeatureRecord) :=
  match featuresGet features kv.2 with
  | none => lookup
  | some data =>
    match statusLabelOf ((data.status.map (fun st => st.baseline)).getD .rNone) with
    | none => lookup
    | some label => mapSet lookup (jsLower kv.1) (mkRecord kv.2 label data ("manual-" ++ kv.1))

/-- baseline.js createFeatureLookupMap: the main loop over the registry
followed by the manual pass; returns the pair (lookupMap,
specificLookupMap). -/
def createFeatureLookupMap (features : FeatureRegistry) (config : AnalysisConfig) :
    List (String × FeatureRecord) × List (String × FeatureRecord) :=
  let maps := features.foldl (processRegistryEntry config) ([], [])
  (specificMappings.foldl (applyManualMapping features) maps.1, maps.2)

/-!
## src/compiler/baseline.js : processCssAst

The css-tree AST is embedded structurally: a stylesheet is a list of Rule
and Atrule nodes; a Rule carries the generated text of its prelude, the
pseudo-class/pseudo-element names found when walking the prelude (in
visit order), and its block declarations; a Declaration carries its
property name, the generated text of its value, and the Function /
Identifier / Dimension nodes found when walking the value (in visit
order); an Atrule carries its name, the generated text of its prelude,
and an optional block of declarations and nested rules. The css-tree
generate printer is thereby embedded as data carried on the nodes. The
walk is pre-order: the callback fires on a node before its children, and
only Rule and Atrule invocations act (the callback body ignores every
other node type). The string-serialization deduplication of the final
formatting (Array.from(new Set(issues.map(JSON.stringify)))) keeps the
first occurrence of each issue.
-/

/-- A node found when walking a declaration value. -/
inductive ValueNode
  | fn (name : String)
  | ident (name : String)
  | dim (unit : String)
deriving DecidableEq, Repr

/-- A css-tree Declaration as the walk consumes it. -/
structure Declaration where
  property : String
  valueText : String
  valueNodes : List ValueNode
deriving DecidableEq, Repr

/-- A css-tree Rule as the walk consumes it: preludeText is the generated
selector text (absent prelude renders as unknown), pseudos the pseudo
selector names found in the prelude. -/
structure Rule where
  preludeText : Option String
  pseudos : List String
  block : Option (List Declaration)
deriving DecidableEq, Repr

/-- A child of an at-rule block: a declaration or a nested rule. -/
inductive AtBlockChild
  | decl (d : Declaration)
  | rule (r : Rule)
deriving DecidableEq, Repr

/-- A css-tree Atrule as the walk consumes it. -/
structure Atrule where
  name : String
  preludeText : Option String
  block : Option (List AtBlockChild)
deriving DecidableEq, Repr

/-- A top-level stylesheet node the walk callback acts on. -/
inductive CssNode
  | rule (r : Rule)
  | atrule (a : Atrule)
deriving DecidableEq, Repr

/-- One reported issue. Presentational fields are omitted, see the
header. -/
structure Issue where
  property : String
  status : BaselineStatus
  featureId : String
  baselineYear : Option String
  description : Option String
deriving DecidableEq, Repr

/-- The feature fields the walk reads when building an issue, common to
lookup-map records and the ad-hoc override objects. -/
structure FeatureInfo where
  featureId : String
  status : BaselineStatus
  description : Option String
  baselineYear : Option String
deriving DecidableEq, Repr

/-- View of a lookup-map record as walk-side feature info. -/
def FeatureRecord.toInfo (r : FeatureRecord) : FeatureInfo :=
  { featureId := r.featureId, status := r.status,
    description := r.description, baselineYear := r.baselineYear }

/-- Builds the issue pushed for a property text and a feature info. -/
def mkIssue (property : String) (i : FeatureInfo) : Issue :=
  { property := property, status := i.status, featureId := i.featureId,
    baselineYear := i.baselineYear, description := i.description }

/-- The report accumulator: selector text to issue list, a Map in the
source. -/
abbrev ReportMap := List (String × List Issue)

/-- The push idiom of the walk: ensure the selector has an entry, then
append the issue unless an existing issue satisfies the (per-site)
duplicate test. -/
def reportPush (m : ReportMap) (sel : String) (dedupHit : Issue → Bool) (i : Issue) :
    ReportMap :=
  let m1 := if mapHas m sel then m else mapSet m sel []
  let cur := (mapGet m1 sel).getD []
  if cur.any dedupHit then m1 else mapSet m1 sel (cur ++ [i])

/-- The hardcoded ::backdrop override of the pseudo-selector scan. -/
def backdropInfo (features : FeatureRegistry) : FeatureInfo :=
  let fd := featuresGet features "backdrop"
  { featureId := "backdrop", status := .highBaseline,
    description := some (jsOrStrD (fd.bind (fun d => d.description))
      "The ::backdrop pseudo-element"),
    baselineYear := getBaselineYear (fd.bind (fun d => d.status)) }

/-- The hardcoded :has() override of the pseudo-selector scan. -/
def hasInfo (features : FeatureRegistry) : FeatureInfo :=
  let fd := featuresGet features "has"
  { featureId := "has", status := .lowBaseline,
    description := some (jsOrStrD (fd.bind (fun d => d.description))
      "The :has() pseudo-class"),
    baselineYear := getBaselineYear (fd.bind (fun d => d.status)) }

/-- The hardcoded :is() / :where() override of the pseudo-selector scan. -/
def isWhereInfo (features : FeatureRegistry) : FeatureInfo :=
  let fd := featuresGet features "is-where-selectors"
  { featureId := "is-where-selectors", status := .highBaseline,
    description := some (jsOrStrD (fd.bind (fun d => d.description))
      "The :is() and :where() pseudo-classes"),
    baselineYear := getBaselineYear (fd.bind (fun d => d.status)) }

/-- The container size-query info of the at-rule disambiguation. -/
def containerSizeInfo (features : FeatureRegistry) : FeatureInfo :=
  let fd := featuresGet features "container-queries"
  { featureId := "container-queries", status := .lowBaseline,
    description := some (jsOrStrD (fd.bind (fun d => d.description))
      "Container size queries"),
    baselineYear := getBaselineYear (fd.bind (fun d => d.status)) }

/-- The container style-query fallback info of the at-rule
disambiguation, used when the lookup map has no entry for the
container-style-queries key. -/
def styleQueryFallback (features : FeatureRegistry) : FeatureInfo :=
  let fd := featuresGet features "container-style-queries"
  { featureId := "container-style-queries", status := .notBaseline,
    description := some (jsOrStrD (fd.bind (fun d => d.description))
      "Container style queries"),
    baselineYear := getBaselineYear (fd.bind (fun d => d.status)) }

/-- The hardcoded logical-properties override of the property scan. -/
def logicalPropsInfo (features : FeatureRegistry) : FeatureInfo :=
  let fd := featuresGet features "logical-properties"
  { featureId := "logical-properties", status := .highBaseline,
    description := some (jsOrStrD (fd.bind (fun d => d.description))
      "CSS logical properties"),
    baselineYear := getBaselineYear (fd.bind (fun d => d.status)) }

/-- The hardcoded clamp/min/max override of the function scan. -/
def clampInfo (features : FeatureRegistry) : FeatureInfo :=
  let fd := featuresGet features "min-max-clamp"
  { featureId := "min-max-clamp", status := .highBaseline,
    description := some (jsOrStrD (fd.bind (fun d => d.description))
      "CSS min(), max(), and clamp() functions"),
    baselineYear := getBaselineYear (fd.bind (fun d => d.status)) }

/-- The hardcoded oklch/oklab override of the function scan. -/
def oklabInfo (features : FeatureRegistry) : FeatureInfo :=
  let fd := featuresGet features "oklab"
  { featureId := "oklab", status := .lowBaseline,
    description := some (jsOrStrD (fd.bind (fun d => d.description))
      "OKLAB and OKLCH color functions"),
    baselineYear := getBaselineYear (fd.bind (fun d => d.status)) }

/-- The hardcoded anchor() override of the function scan. -/
def anchorInfo (features : FeatureRegistry) : FeatureInfo :=
  let fd := featuresGet features "anchor-positioning"
  { featureId := "anchor-positioning", status := .notBaseline,
    description := some (jsOrStrD (fd.bind (fun d => d.description))
      "CSS anchor positioning"),
    baselineYear := getBaselineYear (fd.bind (fun d => d.status)) }

/-- The wellSupportedProperties skip list of the property scan. -/
def wellSupportedProperties : List String :=
  ["display", "margin", "margin-top", "margin-right", "margin-bottom", "margin-left",
   "padding", "padding-top", "padding-right", "padding-bottom", "padding-left",
   "width", "height", "min-width", "max-width", "min-height", "max-height",
   "color", "background", "background-color", "background-image",
   "border", "border-color", "border-width", "border-style",
   "position", "top", "right", "bottom", "left",
   "float", "text-align", "font-family", "font-size", "font-weight",
   "flex-direction", "align-items", "justify-content", "align-content",
   "cursor", "overflow", "z-index", "opacity", "visibility",
   "transition", "animation", "transform", "box-shadow",
   "outline", "resize", "content"]

/-- The commonValues skip list of the identifier scan. -/
def commonValues : List String :=
  ["block", "inline", "flex", "grid", "none", "auto", "inherit", "initial",
   "center", "left", "right", "top", "bottom", "middle", "baseline",
   "start", "end", "stretch", "space-between", "space-around", "space-evenly",
   "row", "column", "wrap", "nowrap", "reverse", "hidden", "visible",
   "scroll", "fixed", "absolute", "relative", "static", "sticky",
   "solid", "dashed", "dotted", "double", "groove", "ridge", "inset", "outset",
   "transparent", "currentcolor", "white", "black", "red", "green", "blue",
   "bold", "normal", "italic", "underline", "overline", "line-through",
   "pointer", "default", "text", "crosshair", "move", "help", "wait",
   "serif", "sans-serif", "monospace", "cursive", "fantasy",
   "small", "medium", "large", "x-small", "x-large", "xx-small", "xx-large",
   "border-box", "content-box", "padding-box", "fill", "contain", "cover"]

/-- The function / identifier / dimension scan of one value node inside a
declaration. -/
def processValueNode (fm : List (String × FeatureRecord)) (features : FeatureRegistry)
    (config : AnalysisConfig) (sel property : String) (m : ReportMap) (vn : ValueNode) :
    ReportMap :=
  match vn with
  | .fn name =>
    let functionName := jsLower name
    let vInfo : Option FeatureInfo :=
      if functionName = "clamp" ∨ functionName = "min" ∨ functionName = "max" then
        some (clampInfo features)
      else if functionName = "oklch" ∨ functionName = "oklab" then
        some (oklabInfo features)
      else if functionName = "anchor" then some (anchorInfo features)
      else (mapGet fm functionName).map FeatureRecord.toInfo
    match vInfo with
    | some info =>
      if shouldIncludeStatus info.status config then
        let propAndValue := property ++ ": " ++ functionName ++ "()"
        reportPush m sel (fun i => i.property = propAndValue) (mkIssue propAndValue info)
      else m
    | none => m
  | .ident name =>
    let identifierName := jsLower name
    if commonValues.contains identifierName then m
    else
      match (mapGet fm identifierName).map FeatureRecord.toInfo with
      | some info =>
        if shouldIncludeStatus info.status config then
          reportPush m sel (fun i => jsIncludes i.property identifierName)
            (mkIssue (property ++ ": " ++ identifierName) info)
        else m
      | none => m
  | .dim _ => m

/-- The declaration scan shared by rules and at-rule blocks: the property
itself (with the well-supported skip list and the logical-properties
override, flagged only when Not or Low Baseline, without duplicate
check), the font-family ui-* special case, then the value walk. -/
def processDeclaration (fm : List (String × FeatureRecord)) (features : FeatureRegistry)
    (config : AnalysisConfig) (sel : String) (m : ReportMap) (d : Declaration) :
    ReportMap :=
  let property := jsLower d.property
  let pInfo0 := (mapGet fm property).map FeatureRecord.toInfo
  let pInfo1 := if wellSupportedProperties.contains property then none else pInfo0
  let pInfo :=
    if property = "margin-block" ∨ property = "margin-inline"
        ∨ property = "padding-block" ∨ property = "padding-inline"
        ∨ jsIncludes property "-block" ∨ jsIncludes property "-inline" then
      some (logicalPropsInfo features)
    else pInfo1
  let m :=
    match pInfo with
    | some info =>
      if info.status = .notBaseline ∨ info.status = .lowBaseline then
        reportPush m sel (fun _ => false) (mkIssue property info)
      else m
    | none => m
  let valueText := jsLower d.valueText
  let m :=
    if property = "font-family" ∧ (jsIncludes valueText "ui-serif"
        ∨ jsIncludes valueText "ui-sans-serif" ∨ jsIncludes valueText "ui-monospace") then
      match featuresGet features "font-family-ui" with
      | some fd =>
        reportPush m sel (fun _ => false)
          { property := property ++ " (ui-* values)", status := .notBaseline,
            featureId := "font-family-ui", baselineYear := getBaselineYear fd.status,
            description := fd.description }
      | none => m
    else m
  d.valueNodes.foldl (processValueNode fm features config sel property) m

/-- The Rule branch of the walk callback: scan the prelude pseudos (with
the hardcoded backdrop / has / is / where overrides and per-name
deduplication), then the block declarations. -/
def processRule (fm : List (String × FeatureRecord)) (features : FeatureRegistry)
    (config : AnalysisConfig) (m : ReportMap) (r : Rule) : ReportMap :=
  let selector := r.preludeText.getD "unknown"
  let m := r.pseudos.foldl (fun m pname =>
    let name := jsLower pname
    let fi : Option FeatureInfo :=
      if name = "backdrop" then some (backdropInfo features)
      else if name = "has" then some (hasInfo features)
      else if name = "is" ∨ name = "where" then some (isWhereInfo features)
      else (mapGet fm name).map FeatureRecord.toInfo
    match fi with
    | some info =>
      if shouldIncludeStatus info.status config then
        reportPush m selector (fun i => i.property = name) (mkIssue name info)
      else m
    | none => m) m
  match r.block with
  | some decls => decls.foldl (processDeclaration fm features config selector) m
  | none => m

/-- The synthetic selector of an at-rule: at-sign, name, trimmed prelude. -/
def atruleSelector (atName : String) (prelude : Option String) : String :=
  jsTrim ("@" ++ atName ++ " " ++ (match prelude with
    | some p => jsTrim p
    | none => ""))

/-- The Atrule branch of the walk callback: look the at-rule name up (with
the container size/style disambiguation on the prelude text), push the
at-rule issue without duplicate check, then scan the block declarations
under the synthetic at-rule selector. Nested rules of the block are
processed afterwards by the pre-order walk descent. -/
def processAtrule (fm : List (String × FeatureRecord)) (features : FeatureRegistry)
    (config : AnalysisConfig) (m : ReportMap) (a : Atrule) : ReportMap :=
  let atRuleName := jsLower a.name
  let fi0 := (mapGet fm atRuleName).map FeatureRecord.toInfo
  let fi : Option FeatureInfo :=
    if atRuleName = "container" then
      let preludeText := jsLower (match a.preludeText with
        | some p => p
        | none => "")
      if jsIncludes preludeText "style(" ∨ jsIncludes preludeText "--" then
        some (((mapGet fm "container-style-queries").map FeatureRecord.toInfo).getD
          (styleQueryFallback features))
      else some (containerSizeInfo features)
    else fi0
  let sel := atruleSelector atRuleName a.preludeText
  let m :=
    match fi with
    | some info => reportPush m sel (fun _ => false) (mkIssue ("@" ++ atRuleName) info)
    | none => m
  match a.block with
  | some children =>
    let m := (children.filterMap (fun c => match c with
      | .decl d => some d
      | _ => none)).foldl (processDeclaration fm features config sel) m
    children.foldl (fun m c => match c with
      | .rule r => processRule fm features config m r
      | _ => m) m
  | none => m

/-- The walk phase of processCssAst: build the lookup map, then fold the
callback over the stylesheet nodes in pre-order, producing the raw report
map. -/
def buildReportMap (features : FeatureRegistry) (ast : List CssNode)
    (config : AnalysisConfig) : ReportMap :=
  let fm := (createFeatureLookupMap features config).1
  ast.foldl (fun m n => match n with
    | .rule r => processRule fm features config m r
    | .atrule a => processAtrule fm features config m a) []

/-- First-occurrence deduplication, modelling
Array.from(new Set(issues.map(JSON.stringify))).map(JSON.parse). -/
def dedupIssuesAux (seen : List Issue) : List Issue → List Issue
  | [] => []
  | i :: rest =>
    if seen.contains i then dedupIssuesAux seen rest
    else i :: dedupIssuesAux (i :: seen) rest

/-- Deduplication entry point. -/
def dedupIssues (l : List Issue) : List Issue :=
  dedupIssuesAux [] l

/-- The final per-issue configuration filter of processCssAst. -/
def keepIssue (config : AnalysisConfig) (i : Issue) : Bool :=
  if i.status = .notBaseline ∧ ¬config.includeNotBaseline then false
  else if i.status = .lowBaseline ∧ ¬(config.includeAvailability.contains "low") then false
  else if i.status = .highBaseline ∧ ¬(config.includeAvailability.contains "high") then false
  else true

/-- One entry of the final report. -/
structure ReportEntry where
  selector : String
  issues : List Issue
deriving DecidableEq, Repr

/-- The final formatting of processCssAst: per selector, deduplicate and
filter the issues, then drop entries left with no issues. -/
def formatReport (config : AnalysisConfig) (rm : ReportMap) : List ReportEntry :=
  (rm.map (fun e => { selector := e.1,
                      issues := (dedupIssues e.2).filter (keepIssue config) }))
    |>.filter (fun e => e.issues ≠ [])

/-- baseline.js processCssAst: walk then format. -/
def processCssAst (features : FeatureRegistry) (ast : List CssNode)
    (config : AnalysisConfig) : List ReportEntry :=
  formatReport config (buildReportMap features ast config)

/-!
## Concrete instances used by the theorems below
-/

/-- The marker-list view of handling one IR line, read off compile's loop:
the acknowledgement emitted for the line, or nothing when the handler
returned null or an empty fragment, or the thrown error. -/
def ackPiece (fw : Framework) (line : IRLine) : Except CompileError (List String) :=
  (handle fw line).map (fun g => match g with
    | some c => if c = "" then [] else [ackText line.cmd]
    | none => [])

/-- A permissive analysis configuration: all statuses included, no year
threshold. -/
def permissiveConfig : AnalysisConfig :=
  { includeAvailability := ["low", "high"], baselineYearThreshold := none,
    includeNotBaseline := true, strictness := "normal" }

/-- A registry entry with one compat key css.properties.zz-k and the given
raw baseline status. -/
def featureEntryOf (raw : BaselineRaw) : FeatureData :=
  { compat_features := some ["css.properties.zz-k"],
    status := some { baseline := raw } }

/-- The raw baseline value whose classification is the given label. -/
def rawOfLabel : BaselineStatus → BaselineRaw
  | .notBaseline => .rFalse
  | .lowBaseline => .rLow
  | .highBaseline => .rHigh

/-- A two-entry registry whose entries f1 and f2 both map to the
identifier zz-k, with the given status labels, in insertion order. -/
def twoEntryRegistry (l1 l2 : BaselineStatus) : FeatureRegistry :=
  [("f1", featureEntryOf (rawOfLabel l1)), ("f2", featureEntryOf (rawOfLabel l2))]

/-- An IR consisting of a single goto command and no framework command. -/
def irGotoOnly : List IRLine :=
  [IRLine.step (.goto { url := "https://e.com", waitUntil := none })]

/-- A schema-valid document whose type step carries the delay string zz,
which contains no digit. -/
def docDigitlessDelay : Document :=
  { framework := .puppeteer, browser := .connect "ws://x",
    steps := some [.typeCmd { selector := "#a", text := "hi", delay := "zz" }] }

/-- The analysis configuration of the report-filtering property: only
high availability, not-baseline excluded. -/
def cfgHighOnly (th : Option Nat) (strict : String) : AnalysisConfig :=
  { includeAvailability := ["high"], baselineYearThreshold := th,
    includeNotBaseline := false, strictness := strict }

/-- A stylesheet consisting of a single @container size query. -/
def astContainerOnly : List CssNode :=
  [.atrule { name := "container", preludeText := some "(min-width: 1px)",
             block := none }]

/-- A concrete page state: element found, text abc, visible, waits
succeed, regex test false. -/
def envAssert : PageEnv :=
  { elementPresent := true, textContent := "abc", isVisible := true,
    waitSucceeds := true, regexTest := fun _ _ => false }

/-- A failing contains assertion with no throwOnFail field. -/
def optsContainsFail : AssertOptions :=
  { selector := "#x", contains := some "zzz" }

/-- The same failing assertion with throwOnFail explicitly false. -/
def optsContainsFailNoThrow : AssertOptions :=
  { selector := "#x", contains := some "zzz", throwOnFail := some false }

/-- A raw document with an invalid framework tag. -/
def rawBadDoc : RawDoc :=
  { framework := some "foo" }

/-- A schema-valid connect-mode script with a goto step and a type step
whose delay is 100ms. -/
def docGotoType (f : Framework) : Document :=
  { framework := f, browser := .connect "ws://x",
    steps := some [.goto { url := "https://example.com", waitUntil := none },
                   .typeCmd { selector := "#a", text := "hi", delay := "100ms" }] }

instance {ε α : Type} [DecidableEq ε] [DecidableEq α] : DecidableEq (Except ε α) :=
  fun x y =>
    match x, y with
    | .error a, .error b =>
      if h : a = b then .isTrue (congrArg Except.error h)
      else .isFalse (fun hc => h (Except.error.inj hc))
    | .ok a, .ok b =>
      if h : a = b then .isTrue (congrArg Except.ok h)
      else .isFalse (fun hc => h (Except.ok.inj hc))
    | .error _, .ok _ => .isFalse (fun hc => Except.noConfusion hc)
    | .ok _, .error _ => .isFalse (fun hc => Except.noConfusion hc)

/-!
## Theorems
-/

theorem append_ne_empty_right (s t : String) (h : t ≠ "") : s ++ t ≠ "" := by
  intro hc
  apply h
  have h2 := congrArg String.data hc
  rw [String.data_append] at h2
  rcases List.append_eq_nil.mp h2 with ⟨_, h3⟩
  cases t
  simp only [String.data] at h3
  simp [h3]

/-- C9 counterexample: the claim predicts that a duration token made of
digits followed by an unrecognized unit keeps its numeric value, but the
unanchored regex lets the unit sx match its s prefix, so 5sx parses as
5000 rather than 5. -/
theorem C9_duration_counterexample :
    parseTimeout "5sx" = some 5000 ∧ (5000 : Nat) ≠ 5 := by
  constructor
  · decide
  · decide

theorem unitGroup_none_of_head (us : List Char)
    (h : us.head?.all (fun c => c ≠ 'm' && c ≠ 's') = true) :
    unitGroup us none = none := by
  match us, h with
  | [], _ => rfl
  | c :: rest, h =>
    simp only [List.head?, Option.all] at h
    unfold unitGroup
    split
    · next heq => simp at heq; simp [heq] at h
    · next heq => simp at heq; simp [heq.1] at h
    · next heq => simp at heq; simp [heq.1] at h
    · rfl

theorem takeWhile_digits (ds us : List Char)
    (hds : ds.all Char.isDigit = true)
    (hus : us.head?.all (fun c => !c.isDigit) = true) :
    (ds ++ us).takeWhile Char.isDigit = ds
    ∧ (ds ++ us).dropWhile Char.isDigit = us := by
  induction ds with
  | nil =>
    simp only [List.nil_append]
    match us, hus with
    | [], _ => exact ⟨rfl, rfl⟩
    | c :: rest, hus =>
      simp only [List.head?, Option.all] at hus
      cases hcd : c.isDigit with
      | true => rw [hcd] at hus; simp at hus
      | false => simp [List.takeWhile, List.dropWhile, hcd]
  | cons d ds ih =>
    simp only [List.all_cons, Bool.and_eq_true] at hds
    have := ih hds.2
    simp [List.takeWhile, List.dropWhile, hds.1, this.1, this.2]

/-- C9 amended: the three documented conversions hold, and a token of
digits followed by a unit keeps its numeric value exactly when no prefix
of the unit matches ms, s or m, that is when the unit does not begin with
m or s; a unit that merely begins with a recognized unit (such as sx) is
treated as that unit. -/
theorem C9_duration_amended :
    parseTimeout "1m" = some 60000
    ∧ parseTimeout "500ms" = some 500
    ∧ parseTimeout "2s" = some 2000
    ∧ ∀ (ds us : List Char), ds ≠ [] → ds.all Char.isDigit = true →
        us.head?.all (fun c => !c.isDigit && c ≠ 'm' && c ≠ 's') = true →
        parseTimeout (String.mk (ds ++ us)) = some (natOfDigits ds) := by
  refine ⟨by decide, by decide, by decide, ?_⟩
  intro ds us hne hds hus
  have hus1 : us.head?.all (fun c => !c.isDigit) = true := by
    cases us with
    | nil => rfl
    | cons c rest =>
      simp only [List.head?, Option.all, Bool.and_eq_true] at hus ⊢
      exact hus.1.1
  have hus2 : us.head?.all (fun c => c ≠ 'm' && c ≠ 's') = true := by
    cases us with
    | nil => rfl
    | cons c rest =>
      simp only [List.head?, Option.all, Bool.and_eq_true] at hus ⊢
      exact ⟨hus.1.2, hus.2⟩
  cases ds with
  | nil => exact absurd rfl hne
  | cons d ds2 =>
    simp only [List.all_cons, Bool.and_eq_true] at hds
    have htake := takeWhile_digits (d :: ds2) us
      (by simp [List.all_cons, hds.1, hds.2]) hus1
    simp only [List.cons_append] at htake
    show parseTimeout (String.mk (d :: (ds2 ++ us))) = _
    unfold parseTimeout
    have hlist : (String.mk (d :: (ds2 ++ us))).toList = d :: (ds2 ++ us) := rfl
    rw [hlist]
    have hdrop0 : (d :: (ds2 ++ us)).dropWhile (fun c => !c.isDigit)
        = d :: (ds2 ++ us) := by
      simp [List.dropWhile, hds.1]
    rw [hdrop0]
    simp only [htake.1, htake.2, unitGroup_none_of_head us hus2]

/-- C9 amended witness at the token 5h. -/
theorem C9_duration_amended_witness :
    parseTimeout (String.mk (['5'] ++ ['h'])) = some (natOfDigits ['5']) :=
  C9_duration_amended.2.2.2 ['5'] ['h'] (by decide) (by decide) (by decide)

/-- C10: for every backend and every baseline_scan payload, the
synthesized baselineScanPipeline call carries a configuration whose
includeNotBaseline field is the literal true and whose strictness field
is the literal relaxed; a compiled program can never request exclusion of
Not Baseline features from lookup-map construction. -/
theorem C10_scan_config_constants (fw : Framework) (v : BaselineScanPayload) :
    (emittedScanConfig v).includeNotBaseline = true
    ∧ (emittedScanConfig v).strictness = "relaxed"
    ∧ handle fw (IRLine.step (Step.baselineScan v)) =
        Except.ok (some (baselineScanCall fw v)) :=
  ⟨rfl, rfl, rfl⟩

theorem getLast?_append_singleton {α : Type} (l : List α) (a : α) :
    (l ++ [a]).getLast? = some a :=
  List.getLast?_concat l

theorem irMode_generated (doc : Document) :
    irMode ([IRLine.framework doc.framework.tag, IRLine.browser doc.browser]
      ++ (doc.steps.getD []).map IRLine.step) = doc.browser.mode := by
  simp [irMode, List.find?, IRLine.cmd]

/-- C2: for every validated script document the IR is non-empty, its last
element is the synthetic EOF teardown command, and the teardown operation
is close exactly when the browser mode is launch, and the distinct
disconnect indicator exactly otherwise. -/
theorem C2_ir_teardown (doc : Document) :
    generateIR doc ≠ []
    ∧ (generateIR doc).getLast? = some (IRLine.eof (eofOperation doc.browser.mode))
    ∧ (eofOperation doc.browser.mode = "close" ↔ doc.browser.mode = "launch")
    ∧ (eofOperation doc.browser.mode = "disconnect" ↔ ¬doc.browser.mode = "launch") := by
  refine ⟨?_, ?_, ?_, ?_⟩
  · simp [generateIR]
  · simp only [generateIR]
    rw [getLast?_append_singleton, irMode_generated doc]
  · cases hb : doc.browser <;> simp [BrowserConfig.mode, eofOperation]
  · cases hb : doc.browser <;> simp [BrowserConfig.mode, eofOperation]

/-- C3 counterexample: compile consults the module-level currentFramework
left behind by prior invocations. On the framework-less IR consisting of
one goto command, a fresh module state makes compile throw, while the
state left by a previous puppeteer compilation makes it emit a puppeteer
program: the program text is not a function of the IR alone. -/
theorem C3_compile_state_counterexample :
    (compile none [IRLine.framework "puppeteer"]).2 = some "puppeteer"
    ∧ (compile none irGotoOnly).1 = Except.error CompileError.handlerUndefined
    ∧ (compile (some "puppeteer") irGotoOnly).1 =
        Except.ok ("await page.goto(\"https://e.com\", \x7b waitUntil: \"undefined\" \x7d)\n"
          ++ ackText "goto")
    ∧ (compile none irGotoOnly).1 ≠ (compile (some "puppeteer") irGotoOnly).1 := by
  refine ⟨rfl, rfl, ?_, by decide⟩
  decide

/-- C3 amended: code synthesis is deterministic and reads no state for
every IR that contains a framework command (the first framework line
overwrites currentFramework before any dispatch); an IR with no framework
command instead depends on the state left behind by prior invocations. -/
theorem C3_compile_deterministic (st1 st2 : Option String) (ir : List IRLine)
    (tag : String)
    (h : ir.find? (fun l => l.cmd = "framework") = some (IRLine.framework tag)) :
    compile st1 ir = compile st2 ir := by
  unfold compile nextFramework
  rw [h]

/-- C3 amended witness: on a concrete IR with a framework command the
result is independent of the inherited state. -/
theorem C3_compile_deterministic_witness :
    compile none [IRLine.framework "puppeteer"]
      = compile (some "selenium") [IRLine.framework "puppeteer"] :=
  C3_compile_deterministic none (some "selenium") _ "puppeteer" (by decide)

/-- C5: in the compiled checkAssertion helper of every backend, an absent
throwOnFail field means stop-on-fail: a false assertion condition, or a
missing element with an assertion kind other than exists false, raises an
error; an explicit throwOnFail false instead reports the failure and
returns false without raising. -/
theorem C5_assert_default (env : PageEnv) (opts : AssertOptions) :
    (opts.throwOnFail = none →
      (assertionResult env opts = false
        ∨ (env.elementPresent = false ∧ opts.existsField ≠ some false)) →
      checkAssertion env opts = .raised)
    ∧ (opts.throwOnFail = some false →
        checkAssertion env opts ≠ .raised
        ∧ (assertionResult env opts = false →
            checkAssertion env opts = .returned false)) := by
  constructor
  · intro hnone hfail
    unfold checkAssertion
    rw [hnone]
    simp only [reduceCtorEq, if_false]
    split
    · rfl
    · split
      · rfl
      · next h1 h2 =>
        split
        · next hres =>
          rcases hfail with hres2 | ⟨hmiss, hex⟩
          · rw [hres] at hres2; exact absurd hres2 (by simp)
          · exact absurd ⟨by simp [hmiss], hex⟩ h2
        · rfl
  · intro hfalse
    unfold checkAssertion
    rw [hfalse]
    simp only [if_true]
    constructor
    · split
      · simp
      · split
        · simp
        · split
          · simp
          · simp
    · intro hres
      split
      · rfl
      · split
        · rfl
        · split
          · next h => rw [hres] at h; exact absurd h (by simp)
          · rfl

/-- C5 witness: with a present element whose text is abc, a contains zzz
assertion with no throwOnFail raises, and the same assertion with
throwOnFail false returns false. -/
theorem C5_assert_default_witness :
    checkAssertion envAssert optsContainsFail = .raised
    ∧ checkAssertion envAssert optsContainsFailNoThrow = .returned false :=
  ⟨(C5_assert_default envAssert optsContainsFail).1 rfl (Or.inl (by decide)),
   ((C5_assert_default envAssert optsContainsFailNoThrow).2 rfl).2 (by decide)⟩

/-- C6 counterexample: on a script whose framework tag violates the
grammar, validation fails with an error identifying the field, but parse
swallows that error (console.error, return undefined), so the error the
caller of run observes is the TypeError generateIR raises on undefined,
not a SchemaViolation identifying the offending field. -/
theorem C6_pipeline_counterexample :
    validateDoc rawBadDoc = Except.error "framework: Invalid enum value"
    ∧ (run none rawBadDoc).1 = Except.error RunError.generateIRTypeError
    ∧ RunError.isSchemaViolation RunError.generateIRTypeError = false := by
  refine ⟨by decide, rfl, rfl⟩

/-- C6 amended: for every script document that violates the command
grammar, the ZodError identifying the offending field is only logged;
parse returns undefined, the pipeline fails synchronously with the
TypeError generateIR raises on undefined, and no IR is generated and no
program text is ever emitted (run never returns ok for such a script). -/
theorem C6_pipeline_stops (st : Option String) (raw : RawDoc) (e : String)
    (h : validateDoc raw = Except.error e) :
    (run st raw).1 = Except.error RunError.generateIRTypeError
    ∧ ∀ code, (run st raw).1 ≠ Except.ok code := by
  have hparse : parseScript raw = none := by
    unfold parseScript
    rw [h]
    rfl
  unfold run
  rw [hparse]
  exact ⟨rfl, fun code hc => Except.noConfusion hc⟩

/-- C6 amended witness at the invalid framework tag foo. -/
theorem C6_pipeline_stops_witness :
    (run none rawBadDoc).1 = Except.error RunError.generateIRTypeError :=
  (C6_pipeline_stops none rawBadDoc "framework: Invalid enum value" (by decide)).1

/-- C7 counterexample: the claim predicts the validator accepts an assert
step carrying a selector and exactly one assertion kind for each kind in
the set exists, contains, equals, matches, visible; but the schema
declares only exists and contains, so an assert supplying only equals,
only matches, or only visible is stripped to a kind-less assert and
rejected by the refinement. -/
theorem C7_schema_counterexample :
    (validateAssert { selector := some "x", equals := some "t" }).toOption = none
    ∧ (validateAssert { selector := some "x", matchesField := some "t" }).toOption = none
    ∧ (validateAssert { selector := some "x", visible := some true }).toOption = none := by
  refine ⟨by decide, by decide, by decide⟩

/-- C7 amended: the assert schema accepts a selector together with exists
true or a non-empty contains, independently of the undeclared (stripped)
equals, matches and visible fields, and rejects an assert supplying
neither exists-true nor contains (in particular one supplying only
equals, matches or visible); the click schema accepts a truthy selector
or a coords object and rejects a step supplying neither. -/
theorem C7_schema_accepts (a : RawAssert) (c : RawClick) :
    ((validateAssert a).toOption.isSome =
      (a.selector.isSome && a.timeout.all hasDigit
        && (truthyBool a.existsField || truthyStr a.contains)))
    ∧ ((validateClick c).toOption.isSome = (truthyStr c.selector || c.coords.isSome)) := by
  constructor
  · obtain ⟨sel?, ex, co, t, eqv, mtv, viv⟩ := a
    cases sel? <;> cases hto : Option.all hasDigit t <;>
      by_cases href : (truthyBool ex || truthyStr co) = true <;>
        simp_all [validateAssert, Except.toOption]
  · obtain ⟨cs, cc⟩ := c
    by_cases hc1 : (truthyStr cs || cc.isSome) = true <;>
      simp_all [validateClick, Except.toOption]


theorem ackPiece_eq_marker (fw : Framework) (line : IRLine) (c : String)
    (h : handle fw line = Except.ok (some c)) (hne : c ≠ "") :
    ackPiece fw line = Except.ok [ackText line.cmd] := by
  simp [ackPiece, h, Except.map, hne]

theorem handleFramework_ne (f : Framework) : handleFramework f ≠ "" := by
  cases f <;> decide

theorem handleBrowser_ne (f : Framework) (cfg : BrowserConfig) :
    handleBrowser f cfg ≠ "" := by
  cases f <;> cases cfg <;> simp only [handleBrowser] <;>
    first
      | decide
      | (apply append_ne_empty_right; decide)

theorem handleEOF_ne (f : Framework) (op : String) : handleEOF f op ≠ "" := by
  cases f <;> simp only [handleEOF]
  · split <;> decide
  · decide
  · decide

theorem handleEmulate_ne (f : Framework) (d : String) : handleEmulate f d ≠ "" := by
  cases f <;> simp only [handleEmulate] <;>
    first
      | decide
      | (apply append_ne_empty_right; decide)

theorem handleGoto_ne (f : Framework) (p : GotoPayload) : handleGoto f p ≠ "" := by
  cases f <;> simp only [handleGoto] <;> (apply append_ne_empty_right; decide)

theorem handleWait_ne (p : WaitPayload) : handleWait p ≠ "" := by
  simp only [handleWait]
  apply append_ne_empty_right
  decide

theorem handleWaitForSelector_ne (f : Framework) (p : SelectorPayload) :
    handleWaitForSelector f p ≠ "" := by
  cases f <;> simp only [handleWaitForSelector] <;> (apply append_ne_empty_right; decide)

theorem handleScreenshot_ne (f : Framework) (p : ScreenshotPayload) :
    handleScreenshot f p ≠ "" := by
  cases f <;> simp only [handleScreenshot] <;> (apply append_ne_empty_right; decide)

theorem handlePress_ne (f : Framework) (p : PressPayload) : handlePress f p ≠ "" := by
  cases f <;> simp only [handlePress] <;> (apply append_ne_empty_right; decide)

theorem handleFocus_ne (f : Framework) (p : SelectorPayload) : handleFocus f p ≠ "" := by
  cases f <;> simp only [handleFocus] <;> (apply append_ne_empty_right; decide)

theorem handleHover_ne (f : Framework) (p : SelectorPayload) : handleHover f p ≠ "" := by
  cases f <;> simp only [handleHover] <;> (apply append_ne_empty_right; decide)

theorem handleClose_ne (f : Framework) : handleClose f ≠ "" := by
  cases f <;> decide

theorem handleAssert_ne (f : Framework) (p : AssertStepPayload) :
    handleAssert f p ≠ "" := by
  cases f <;> simp only [handleAssert] <;> (apply append_ne_empty_right; decide)

theorem baselineScanCall_ne (f : Framework) (v : BaselineScanPayload) :
    baselineScanCall f v ≠ "" := by
  simp only [baselineScanCall]
  apply append_ne_empty_right
  decide

theorem ackPiece_typeCmd (f : Framework) (p : TypePayload) (d : Nat)
    (hd : parseTimeout p.delay = some d) :
    ackPiece f (IRLine.step (Step.typeCmd p)) = Except.ok [ackText "type"] := by
  cases f
  · refine ackPiece_eq_marker _ _
      ("await page.type(\"" ++ p.selector ++ "\", \"" ++ p.text
        ++ "\", \x7b \"delay\": " ++ toString d ++ " \x7d)\n") ?_ ?_
    · show handleType .puppeteer p = _
      unfold handleType
      rw [hd]
    · apply append_ne_empty_right; decide
  · refine ackPiece_eq_marker _ _
      ("await page.fill(\"" ++ p.selector ++ "\", \"\");\nawait page.type(\""
        ++ p.selector ++ "\", \"" ++ p.text ++ "\", \x7b delay: "
        ++ toString d ++ " \x7d)\n") ?_ ?_
    · show handleType .playwright p = _
      unfold handleType
      rw [hd]
    · apply append_ne_empty_right; decide
  · refine ackPiece_eq_marker _ _ _ rfl ?_
    apply append_ne_empty_right; decide

theorem ackPiece_click_selector (f : Framework) (p : ClickPayload)
    (hsel : truthyStr p.selector = true) :
    ackPiece f (IRLine.step (Step.click p)) = Except.ok [ackText "click"] := by
  have hh : handle f (IRLine.step (Step.click p)) = Except.ok (some (match f with
      | .puppeteer => "await page.locator(\"" ++ p.selector.getD "" ++ "\").click()\n"
      | .playwright => "await page.click(\"" ++ p.selector.getD "" ++ "\")\n"
      | .selenium => "await driver.findElement(By.css(\"" ++ p.selector.getD ""
          ++ "\")).click()\n")) := by
    show handleClick f p = _
    unfold handleClick
    rw [if_pos hsel]
  refine ackPiece_eq_marker _ _ _ hh ?_
  cases f <;> (apply append_ne_empty_right; decide)

theorem ackPiece_click_coords (f : Framework) (p : ClickPayload) (cxy : Coords)
    (hsel : ¬truthyStr p.selector = true) (hco : p.coords = some cxy) :
    ackPiece f (IRLine.step (Step.click p)) = Except.ok [ackText "click"] := by
  have hh : handle f (IRLine.step (Step.click p)) = Except.ok (some (match f with
      | .puppeteer => "await page.mouse.click(" ++ toString cxy.x ++ ", "
          ++ toString cxy.y ++ ")\n"
      | .playwright => "await page.mouse.click(" ++ toString cxy.x ++ ", "
          ++ toString cxy.y ++ ")\n"
      | .selenium => "await driver.actions().move(\x7bx: " ++ toString cxy.x
          ++ ", y: " ++ toString cxy.y ++ "\x7d).click().perform()\n")) := by
    show handleClick f p = _
    unfold handleClick
    rw [if_neg hsel, hco]
  refine ackPiece_eq_marker _ _ _ hh ?_
  cases f <;> (apply append_ne_empty_right; decide)

theorem ackPiece_click_none (f : Framework) (p : ClickPayload)
    (hsel : ¬truthyStr p.selector = true) (hco : p.coords = none) :
    ackPiece f (IRLine.step (Step.click p)) = Except.error .coordsUndefined := by
  have hh : handle f (IRLine.step (Step.click p)) = Except.error .coordsUndefined := by
    show handleClick f p = _
    unfold handleClick
    rw [if_neg hsel, hco]
  simp [ackPiece, hh, Except.map]

theorem ackPiece_framework_indep (f1 f2 : Framework) (line : IRLine)
    (h : ∀ p : TypePayload, line = IRLine.step (Step.typeCmd p) →
      (parseTimeout p.delay).isSome = true) :
    ackPiece f1 line = ackPiece f2 line := by
  cases line with
  | framework t =>
    rw [ackPiece_eq_marker f1 (IRLine.framework t) _ rfl (handleFramework_ne f1),
        ackPiece_eq_marker f2 (IRLine.framework t) _ rfl (handleFramework_ne f2)]
  | browser cfg =>
    rw [ackPiece_eq_marker f1 (IRLine.browser cfg) _ rfl (handleBrowser_ne f1 cfg),
        ackPiece_eq_marker f2 (IRLine.browser cfg) _ rfl (handleBrowser_ne f2 cfg)]
  | eof op =>
    rw [ackPiece_eq_marker f1 (IRLine.eof op) _ rfl (handleEOF_ne f1 op),
        ackPiece_eq_marker f2 (IRLine.eof op) _ rfl (handleEOF_ne f2 op)]
  | step s =>
    cases s with
    | newPage b => rfl
    | emulate d =>
      rw [ackPiece_eq_marker f1 (IRLine.step (Step.emulate d)) _ rfl (handleEmulate_ne f1 d),
          ackPiece_eq_marker f2 (IRLine.step (Step.emulate d)) _ rfl (handleEmulate_ne f2 d)]
    | goto p =>
      rw [ackPiece_eq_marker f1 (IRLine.step (Step.goto p)) _ rfl (handleGoto_ne f1 p),
          ackPiece_eq_marker f2 (IRLine.step (Step.goto p)) _ rfl (handleGoto_ne f2 p)]
    | wait p =>
      rw [ackPiece_eq_marker f1 (IRLine.step (Step.wait p)) _ rfl (handleWait_ne p),
          ackPiece_eq_marker f2 (IRLine.step (Step.wait p)) _ rfl (handleWait_ne p)]
    | waitForSelector p =>
      rw [ackPiece_eq_marker f1 (IRLine.step (Step.waitForSelector p)) _ rfl (handleWaitForSelector_ne f1 p),
          ackPiece_eq_marker f2 (IRLine.step (Step.waitForSelector p)) _ rfl (handleWaitForSelector_ne f2 p)]
    | typeCmd p =>
      obtain ⟨d, hd⟩ := Option.isSome_iff_exists.mp (h p rfl)
      rw [ackPiece_typeCmd f1 p d hd, ackPiece_typeCmd f2 p d hd]
    | screenshot p =>
      rw [ackPiece_eq_marker f1 (IRLine.step (Step.screenshot p)) _ rfl (handleScreenshot_ne f1 p),
          ackPiece_eq_marker f2 (IRLine.step (Step.screenshot p)) _ rfl (handleScreenshot_ne f2 p)]
    | click p =>
      by_cases hsel : truthyStr p.selector = true
      · rw [ackPiece_click_selector f1 p hsel, ackPiece_click_selector f2 p hsel]
      · cases hco : p.coords with
        | none => rw [ackPiece_click_none f1 p hsel hco, ackPiece_click_none f2 p hsel hco]
        | some cxy =>
          rw [ackPiece_click_coords f1 p cxy hsel hco,
              ackPiece_click_coords f2 p cxy hsel hco]
    | press p =>
      rw [ackPiece_eq_marker f1 (IRLine.step (Step.press p)) _ rfl (handlePress_ne f1 p),
          ackPiece_eq_marker f2 (IRLine.step (Step.press p)) _ rfl (handlePress_ne f2 p)]
    | focus p =>
      rw [ackPiece_eq_marker f1 (IRLine.step (Step.focus p)) _ rfl (handleFocus_ne f1 p),
          ackPiece_eq_marker f2 (IRLine.step (Step.focus p)) _ rfl (handleFocus_ne f2 p)]
    | hover p =>
      rw [ackPiece_eq_marker f1 (IRLine.step (Step.hover p)) _ rfl (handleHover_ne f1 p),
          ackPiece_eq_marker f2 (IRLine.step (Step.hover p)) _ rfl (handleHover_ne f2 p)]
    | baselineScan p =>
      rw [ackPiece_eq_marker f1 (IRLine.step (Step.baselineScan p)) _ rfl (baselineScanCall_ne f1 p),
          ackPiece_eq_marker f2 (IRLine.step (Step.baselineScan p)) _ rfl (baselineScanCall_ne f2 p)]
    | assertCmd p =>
      rw [ackPiece_eq_marker f1 (IRLine.step (Step.assertCmd p)) _ rfl (handleAssert_ne f1 p),
          ackPiece_eq_marker f2 (IRLine.step (Step.assertCmd p)) _ rfl (handleAssert_ne f2 p)]
    | close b =>
      rw [ackPiece_eq_marker f1 (IRLine.step (Step.close b)) _ rfl (handleClose_ne f1),
          ackPiece_eq_marker f2 (IRLine.step (Step.close b)) _ rfl (handleClose_ne f2)]

theorem ackMarkersAux_cons_piece (fw : Framework) (x : IRLine) (rest : List IRLine) :
    ackMarkersAux (some fw) (x :: rest)
      = (ackPiece fw x).bind (fun p =>
          (ackMarkersAux (some fw) rest).map (fun ms => p ++ ms)) := by
  cases hx : handle fw x <;> cases hr : ackMarkersAux (some fw) rest <;>
    simp [ackMarkersAux, ackPiece, hx, hr, Except.map, Except.bind, bind]

theorem ackMarkersAux_congr (f1 f2 : Framework) (l : List IRLine)
    (h : ∀ line ∈ l, ackPiece f1 line = ackPiece f2 line) :
    ackMarkersAux (some f1) l = ackMarkersAux (some f2) l := by
  induction l with
  | nil => rfl
  | cons x rest ih =>
    rw [ackMarkersAux_cons_piece, ackMarkersAux_cons_piece,
        h x (List.mem_cons_self x rest),
        ih (fun line hm => h line (List.mem_cons_of_mem x hm))]

theorem frameworkHandlers_tag (f : Framework) : frameworkHandlers f.tag = some f := by
  cases f <;> rfl

theorem generateIR_reframed (doc : Document) (f : Framework) :
    generateIR { doc with framework := f }
      = IRLine.framework f.tag
        :: (IRLine.browser doc.browser :: (doc.steps.getD []).map IRLine.step
            ++ [IRLine.eof (eofOperation doc.browser.mode)]) := by
  simp only [generateIR]
  rw [irMode_generated { doc with framework := f }]
  simp

theorem nextFramework_reframed (doc : Document) (f : Framework) :
    nextFramework none (generateIR { doc with framework := f }) = some f.tag := by
  rw [generateIR_reframed]
  simp [nextFramework, List.find?, IRLine.cmd]

/-- C4 counterexample: on the schema-valid script whose type step carries
the digitless delay zz, puppeteer (and playwright) compilation throws
inside handleType via parseTimeout, while selenium compiles and emits
four acknowledgement markers: swapping only the backend tag changes both
whether a program exists and its marker sequence. -/
theorem C4_backend_markers_counterexample :
    ackMarkers none (generateIR docDigitlessDelay)
        = Except.error CompileError.parseTimeoutNullMatch
    ∧ ackMarkers none (generateIR { docDigitlessDelay with framework := .selenium })
        = Except.ok [ackText "framework", ackText "browser", ackText "type", ackText "EOF"]
    ∧ ackMarkers none (generateIR docDigitlessDelay)
        ≠ ackMarkers none (generateIR { docDigitlessDelay with framework := .selenium }) := by
  refine ⟨by decide, by decide, by decide⟩

/-- C4 amended: for every valid script all of whose type steps carry a
delay containing a digit (so parseTimeout succeeds), changing only the
framework tag among the three backends leaves the count and order of the
per-step acknowledgement markers identical. Without that proviso the
property fails, see the counterexample: a digitless type delay makes
puppeteer and playwright compilation throw while selenium succeeds. -/
theorem C4_backend_markers_amended (doc : Document) (h : typeDelaysParse doc)
    (f1 f2 : Framework) :
    ackMarkers none (generateIR { doc with framework := f1 })
      = ackMarkers none (generateIR { doc with framework := f2 }) := by
  unfold ackMarkers
  rw [nextFramework_reframed doc f1, nextFramework_reframed doc f2]
  simp only [Option.some_bind, frameworkHandlers_tag]
  rw [generateIR_reframed doc f1, generateIR_reframed doc f2]
  rw [ackMarkersAux_cons_piece, ackMarkersAux_cons_piece]
  rw [ackPiece_eq_marker f1 (IRLine.framework f1.tag) _ rfl (handleFramework_ne f1),
      ackPiece_eq_marker f2 (IRLine.framework f2.tag) _ rfl (handleFramework_ne f2)]
  rw [ackMarkersAux_congr f1 f2 _ ?_]
  · rfl
  intro line hm
  apply ackPiece_framework_indep
  intro p hp
  subst hp
  have hmem : Step.typeCmd p ∈ doc.steps.getD [] := by
    rcases List.mem_cons.mp hm with hb | hm2
    · exact absurd hb (by simp)
    · rcases List.mem_append.mp hm2 with hmap | heof
      · obtain ⟨s, hs, hsl⟩ := List.mem_map.mp hmap
        have hst : s = Step.typeCmd p := by
          cases s <;> simp_all
        subst hst
        exact hs
      · simp at heof
  exact h _ hmem p rfl

/-- C4 amended witness: for a concrete connect-mode script with goto and
type steps (delay 100ms), puppeteer and selenium emit the same marker
sequence. -/
theorem C4_backend_markers_amended_witness :
    ackMarkers none (generateIR { docGotoType .puppeteer with framework := Framework.puppeteer })
      = ackMarkers none (generateIR { docGotoType .puppeteer with framework := Framework.selenium }) :=
  C4_backend_markers_amended (docGotoType .puppeteer)
    (by
      intro s hs p hp
      subst hp
      simp only [docGotoType, Option.getD, List.mem_cons] at hs
      rcases hs with hs | hs | hs
      · exact absurd hs (by simp)
      · rw [show p = { selector := "#a", text := "hi", delay := "100ms" } from by
            cases hs; rfl]
        decide
      · exact absurd hs (by simp))
    .puppeteer .selenium

theorem mem_keys_mapSet {α : Type} (m : List (String × α)) (k : String) (v : α)
    (x : String) (hx : x ∈ (mapSet m k v).map Prod.fst) :
    x = k ∨ x ∈ m.map Prod.fst := by
  induction m with
  | nil =>
    simp [mapSet] at hx
    exact Or.inl hx
  | cons e rest ih =>
    by_cases he : e.1 = k
    · rw [show mapSet (e :: rest) k v = (k, v) :: rest from by
        cases e
        simp [mapSet]
        intro hne
        simp_all] at hx
      rcases List.mem_map.mp hx with ⟨y, hy, hyx⟩
      rcases List.mem_cons.mp hy with hy1 | hy2
      · subst hy1
        exact Or.inl hyx.symm
      · right
        rw [← hyx]
        exact List.mem_map.mpr ⟨y, List.mem_cons_of_mem e hy2, rfl⟩
    · rw [show mapSet (e :: rest) k v = e :: mapSet rest k v from by
        cases e
        simp [mapSet]
        intro hne
        simp_all] at hx
      rcases List.mem_map.mp hx with ⟨y, hy, hyx⟩
      rcases List.mem_cons.mp hy with hy1 | hy2
      · subst hy1
        exact Or.inr (List.mem_map.mpr ⟨y, List.mem_cons_self _ _, hyx⟩)
      · rcases ih (List.mem_map.mpr ⟨y, hy2, hyx⟩) with h1 | h2
        · exact Or.inl h1
        · exact Or.inr (List.mem_map.mpr (by
            rcases List.mem_map.mp h2 with ⟨z, hz, hzx⟩
            exact ⟨z, List.mem_cons_of_mem e hz, hzx⟩))

theorem mapSet_keys_nodup {α : Type} (m : List (String × α)) (k : String) (v : α)
    (h : (m.map Prod.fst).Nodup) : ((mapSet m k v).map Prod.fst).Nodup := by
  induction m with
  | nil => simp [mapSet]
  | cons e rest ih =>
    simp only [List.map_cons, List.nodup_cons] at h
    by_cases he : e.1 = k
    · rw [show mapSet (e :: rest) k v = (k, v) :: rest from by
        cases e
        simp [mapSet]
        intro hne
        simp_all]
      simp only [List.map_cons, List.nodup_cons]
      exact ⟨by rw [← he]; exact h.1, h.2⟩
    · rw [show mapSet (e :: rest) k v = e :: mapSet rest k v from by
        cases e
        simp [mapSet]
        intro hne
        simp_all]
      simp only [List.map_cons, List.nodup_cons]
      refine ⟨?_, ih h.2⟩
      intro hmem
      rcases mem_keys_mapSet rest k v e.1 hmem with h1 | h2
      · exact he h1
      · exact h.1 h2

theorem foldl_inv {α β : Type} (P : α → Prop) (f : α → β → α)
    (hf : ∀ a b, P a → P (f a b)) (l : List β) (a : α) (ha : P a) :
    P (l.foldl f a) := by
  induction l generalizing a with
  | nil => exact ha
  | cons b rest ih => exact ih (f a b) (hf a b ha)

theorem lookupInsert_keys_nodup (m : List (String × FeatureRecord)) (nk : String)
    (label : BaselineStatus) (rec : FeatureRecord)
    (h : (m.map Prod.fst).Nodup) :
    ((lookupInsert m nk label rec).map Prod.fst).Nodup := by
  unfold lookupInsert
  split
  · exact mapSet_keys_nodup m nk rec h
  · exact h

theorem processCompatKey_keys_nodup (featureId : String) (label : BaselineStatus)
    (data : FeatureData)
    (acc : List (String × FeatureRecord) × List (String × FeatureRecord)) (ck : String)
    (h : (acc.1.map Prod.fst).Nodup) :
    (((processCompatKey featureId label data acc ck).1).map Prod.fst).Nodup := by
  unfold processCompatKey
  cases compatKeyIdent ck with
  | none => exact h
  | some key =>
    simp only
    split
    · exact lookupInsert_keys_nodup _ _ _ _ h
    · exact h

theorem processRegistryEntry_keys_nodup (config : AnalysisConfig)
    (acc : List (String × FeatureRecord) × List (String × FeatureRecord))
    (entry : String × FeatureData)
    (h : (acc.1.map Prod.fst).Nodup) :
    (((processRegistryEntry config acc entry).1).map Prod.fst).Nodup := by
  unfold processRegistryEntry
  cases entry.2.compat_features with
  | none => exact h
  | some cks =>
    cases statusLabelOf ((entry.2.status.map (fun st => st.baseline)).getD .rNone) with
    | none => exact h
    | some label =>
      simp only
      split
      · exact foldl_inv (fun a => (a.1.map Prod.fst).Nodup)
          (processCompatKey entry.1 label entry.2)
          (fun a b ha => processCompatKey_keys_nodup entry.1 label entry.2 a b ha)
          cks acc h
      · exact h

theorem applyManualMapping_keys_nodup (features : FeatureRegistry)
    (lookup : List (String × FeatureRecord)) (kv : String × String)
    (h : (lookup.map Prod.fst).Nodup) :
    ((applyManualMapping features lookup kv).map Prod.fst).Nodup := by
  unfold applyManualMapping
  split
  · exact h
  · split
    · exact h
    · exact mapSet_keys_nodup _ _ _ h

/-- C1 counterexample: with two registry entries mapping to the same
identifier, a Not Baseline entry followed by a Low Baseline entry yields
Low Baseline in the lookup map (the override condition admits any Low or
Not Baseline newcomer), contradicting the claim that the more restrictive
status (Not Baseline) wins. -/
theorem C1_lookup_priority_counterexample :
    (mapGet (createFeatureLookupMap
        (twoEntryRegistry .notBaseline .lowBaseline) permissiveConfig).1 "zz-k").map
        (fun r => r.status)
      = some BaselineStatus.lowBaseline
    ∧ some BaselineStatus.lowBaseline ≠ some BaselineStatus.notBaseline := by
  refine ⟨by decide, by decide⟩

/-- C1 amended: the lookup map holds at most one record per identifier
(its key list has no duplicates, for every registry and configuration);
and on two entries mapping to the same identifier the later entry
overwrites the earlier one exactly when its own status is Not Baseline or
Low Baseline: in particular, Not Baseline and High Baseline in either
insertion order yield Not Baseline, but a Low Baseline entry inserted
after a Not Baseline one wins, and a High Baseline tie keeps the
earlier-inserted record rather than the later one. -/
theorem C1_lookup_priority_amended :
    (∀ (features : FeatureRegistry) (config : AnalysisConfig),
      ((createFeatureLookupMap features config).1.map Prod.fst).Nodup)
    ∧ (∀ l1 l2 : BaselineStatus,
        (mapGet (createFeatureLookupMap (twoEntryRegistry l1 l2) permissiveConfig).1
            "zz-k").map (fun r => (r.featureId, r.status))
          = some (if l2 = .highBaseline then ("f1", l1) else ("f2", l2))) := by
  constructor
  · intro features config
    unfold createFeatureLookupMap
    simp only
    apply foldl_inv (fun a => (a.map Prod.fst).Nodup)
      (applyManualMapping features)
      (fun a b ha => applyManualMapping_keys_nodup features a b ha)
    exact foldl_inv (fun a => (a.1.map Prod.fst).Nodup)
      (processRegistryEntry config)
      (fun a b ha => processRegistryEntry_keys_nodup config a b ha)
      features ([], []) (by simp)
  · intro l1 l2
    cases l1 <;> cases l2 <;> decide

theorem mem_dedupIssuesAux (seen : List Issue) (l : List Issue) (i : Issue)
    (h : i ∈ dedupIssuesAux seen l) : i ∈ l := by
  induction l generalizing seen with
  | nil => simp [dedupIssuesAux] at h
  | cons x rest ih =>
    unfold dedupIssuesAux at h
    split at h
    · exact List.mem_cons_of_mem x (ih _ h)
    · rcases List.mem_cons.mp h with h1 | h2
      · exact h1 ▸ List.mem_cons_self x rest
      · exact List.mem_cons_of_mem x (ih _ h2)

theorem mem_dedupIssues (l : List Issue) (i : Issue) (h : i ∈ dedupIssues l) :
    i ∈ l :=
  mem_dedupIssuesAux [] l i h

theorem keepIssue_cfgHighOnly (th : Option Nat) (strict : String) (i : Issue) :
    keepIssue (cfgHighOnly th strict) i = true ↔ i.status = .highBaseline := by
  cases hs : i.status <;> simp [keepIssue, cfgHighOnly, hs]

/-- C8: with includeAvailability high and includeNotBaseline false, the
report processCssAst returns contains no Low Baseline or Not Baseline
issue and no entry with an empty issue list; and when the walk collects
only Low or Not Baseline issues (a stylesheet using only such features),
the returned report is empty. -/
theorem C8_report_filtering (features : FeatureRegistry) (ast : List CssNode)
    (th : Option Nat) (strict : String) :
    (∀ e ∈ processCssAst features ast (cfgHighOnly th strict),
      e.issues ≠ []
      ∧ ∀ i ∈ e.issues, i.status ≠ .lowBaseline ∧ i.status ≠ .notBaseline)
    ∧ ((∀ p ∈ buildReportMap features ast (cfgHighOnly th strict),
          ∀ i ∈ p.2, i.status = .notBaseline ∨ i.status = .lowBaseline) →
        processCssAst features ast (cfgHighOnly th strict) = []) := by
  constructor
  · intro e he
    unfold processCssAst formatReport at he
    rcases List.mem_filter.mp he with ⟨hmap, hne⟩
    constructor
    · simpa using hne
    · intro i hi
      rcases List.mem_map.mp hmap with ⟨p, hp, hpe⟩
      rw [← hpe] at hi
      simp only at hi
      have hkeep := (List.mem_filter.mp hi).2
      have hhb := (keepIssue_cfgHighOnly th strict i).mp hkeep
      rw [hhb]
      exact ⟨by simp, by simp⟩
  · intro hall
    unfold processCssAst formatReport
    apply List.filter_eq_nil_iff.mpr
    intro e hmap
    rcases List.mem_map.mp hmap with ⟨p, hp, hpe⟩
    have hempty : List.filter (keepIssue (cfgHighOnly th strict)) (dedupIssues p.2) = [] := by
      apply List.filter_eq_nil_iff.mpr
      intro i hi
      have himem := mem_dedupIssues _ _ hi
      have hstat := hall p hp i himem
      intro hkeep
      have hhb := (keepIssue_cfgHighOnly th strict i).mp hkeep
      rcases hstat with h1 | h1 <;> rw [h1] at hhb <;> exact BaselineStatus.noConfusion hhb
    rw [← hpe]
    simp [hempty]

/-- C8 witness: a stylesheet consisting of one @container size query
makes the walk collect a Low Baseline issue, and the formatted report
under high-only filtering is empty. -/
theorem C8_report_filtering_witness :
    processCssAst [] astContainerOnly (cfgHighOnly none "relaxed") = []
    ∧ buildReportMap [] astContainerOnly (cfgHighOnly none "relaxed") ≠ [] :=
  ⟨(C8_report_filtering [] astContainerOnly none "relaxed").2 (by decide), by decide⟩
